import Mathlib

set_option maxRecDepth 4000

/-
Verification development for the TheWriter repository.

Strings are modelled as lists of characters (`Str`).  Python string
operations (`strip`, `splitlines`, `upper`, `casefold`, regular-expression
matching) are embedded as executable Lean functions.  Case mapping is
modelled character-wise for the ASCII and Russian-Cyrillic ranges, which
covers every alphabet used by the program; Python whitespace is modelled
by the set of characters accepted by `str.isspace`.
-/

namespace TheWriter

abbrev Str := List Char

def pyS (s : String) : Str := s.data

/-- Python whitespace characters (the set recognised by `str.isspace` and
by the regex class used with `str` patterns). -/
def isPySpace (c : Char) : Bool :=
  c = ' ' || c = '\t' || c = '\n' || c = '\r' || c = '\x0b' || c = '\x0c' ||
  c = '\x1c' || c = '\x1d' || c = '\x1e' || c = '\x1f' || c = '\x85' || c = '\xa0' ||
  c = ' ' || (' ' ≤ c && c ≤ ' ') || c = ' ' || c = ' ' ||
  c = ' ' || c = ' ' || c = '　'

/-- Line-boundary characters of Python `str.splitlines`. -/
def isLineBreakChar (c : Char) : Bool :=
  c = '\n' || c = '\r' || c = '\x0b' || c = '\x0c' || c = '\x1c' || c = '\x1d' ||
  c = '\x1e' || c = '\x85' || c = ' ' || c = ' '

def pySplitlinesAux : Str → Bool → Str → List Str
  | [], _, acc => if acc.isEmpty then [] else [acc.reverse]
  | c :: rest, afterCr, acc =>
      if c = '\n' ∧ afterCr = true then pySplitlinesAux rest false acc
      else if c = '\r' then acc.reverse :: pySplitlinesAux rest true []
      else if isLineBreakChar c then acc.reverse :: pySplitlinesAux rest false []
      else pySplitlinesAux rest false (c :: acc)

/-- Python `str.splitlines` (the `afterCr` flag of the helper makes a
CRLF pair count as a single boundary). -/
def pySplitlines (s : Str) : List Str := pySplitlinesAux s false []

def pyLstrip (s : Str) : Str := s.dropWhile isPySpace

def pyRstrip (s : Str) : Str := (s.reverse.dropWhile isPySpace).reverse

/-- Python `str.strip()`. -/
def pyStrip (s : Str) : Str := pyRstrip (pyLstrip s)

/-- Python `str.strip("\n")`. -/
def pyStripNl (s : Str) : Str :=
  ((s.dropWhile (· = '\n')).reverse.dropWhile (· = '\n')).reverse

def wsTokensAux : Str → Str → List Str
  | [], acc => if acc.isEmpty then [] else [acc.reverse]
  | c :: rest, acc =>
      if isPySpace c then
        if acc.isEmpty then wsTokensAux rest []
        else acc.reverse :: wsTokensAux rest []
      else wsTokensAux rest (c :: acc)

/-- The maximal non-whitespace runs of a string; equals
`re.split(r"\s+", s)` for a string with no leading/trailing whitespace. -/
def wsTokens (s : Str) : List Str := wsTokensAux s []

/-- Python `str.upper`, character-wise, for ASCII and Russian Cyrillic. -/
def pyUpperChar (c : Char) : Char :=
  if 'a' ≤ c && c ≤ 'z' then Char.ofNat (c.toNat - 32)
  else if 'а' ≤ c && c ≤ 'я' then Char.ofNat (c.toNat - 32)
  else if c = 'ё' then 'Ё'
  else c

/-- Python `str.casefold`, character-wise, for ASCII and Russian Cyrillic. -/
def pyCasefoldChar (c : Char) : Char :=
  if 'A' ≤ c && c ≤ 'Z' then Char.ofNat (c.toNat + 32)
  else if 'А' ≤ c && c ≤ 'Я' then Char.ofNat (c.toNat + 32)
  else if c = 'Ё' then 'ё'
  else c

def pyUpper (s : Str) : Str := s.map pyUpperChar

def pyCasefold (s : Str) : Str := s.map pyCasefoldChar

def isAsciiAlpha (c : Char) : Bool := ('A' ≤ c && c ≤ 'Z') || ('a' ≤ c && c ≤ 'z')

def isDigitChar (c : Char) : Bool := '0' ≤ c && c ≤ '9'

def isAsciiAlnum (c : Char) : Bool := isAsciiAlpha c || isDigitChar c

/-- ASCII fragment of the regex class backslash-w. -/
def isWordChar (c : Char) : Bool := isAsciiAlnum c || c = '_'

/-- The non-empty stripped lines of the input
(`[line.strip() for line in s.splitlines() if line.strip()]`). -/
def nonEmptyLines (s : Str) : List Str :=
  ((pySplitlines s).map pyStrip).filter (· ≠ [])

/-! ## Range/Zone dialect (`app/ui/current_situation.py`, `notation_to_text`)

The line regexes `_LINE_1_IN_RE`, `_LINE_1_RANGE_ONE_RE`,
`_LINE_1_RANGE_TWO_RE` and `_RANGE_CLAUSE_RE` are anchored on both sides,
case-insensitive, and separate all their groups by `\s+`; on the stripped
single-line inputs they are applied to they are therefore equivalent to
whole-token matching of the whitespace-separated token list, which is how
they are embedded here. -/

/-- Token of the group `[A-Za-z0-9]+`. -/
def isTfToken (s : Str) : Bool := !s.isEmpty && s.all isAsciiAlnum

/-- Token of the group `[A-Za-z][A-Za-z0-9_-]*`. -/
def isElemToken : Str → Bool
  | [] => false
  | c :: rest => isAsciiAlpha c && rest.all (fun d => isAsciiAlnum d || d = '_' || d = '-')

def isSignToken (s : Str) : Bool := s = pyS "+" || s = pyS "-"

def isApToken (s : Str) : Bool := pyUpper s = pyS "ACTUAL" || pyUpper s = pyS "PREV"

def isZoneToken (s : Str) : Bool :=
  pyCasefold s = pyS "premium" || pyCasefold s = pyS "equilibrium" ||
  pyCasefold s = pyS "discount"

/-- `_LINE_1_IN_RE` match groups. -/
def lineInMatch (line : Str) : Option (Str × Str × Str) :=
  match wsTokens line with
  | [kw, sign, tf, el] =>
      if pyUpper kw = pyS "IN" ∧ isSignToken sign = true ∧ isTfToken tf = true ∧
         isElemToken el = true then
        some (sign, tf, el)
      else none
  | _ => none

/-- `_LINE_1_RANGE_ONE_RE` match groups. -/
def lineRangeOneMatch (line : Str) : Option (Str × Str × Str × Str) :=
  match wsTokens line with
  | [kw, sign, tf, el, dir] =>
      if pyUpper kw = pyS "RANGE" ∧ isSignToken sign = true ∧ isTfToken tf = true ∧
         isElemToken el = true ∧ (pyUpper dir = pyS "UP" ∨ pyUpper dir = pyS "DOWN") then
        some (sign, tf, el, dir)
      else none
  | _ => none

/-- `_LINE_1_RANGE_TWO_RE` match groups. -/
def lineRangeTwoMatch (line : Str) : Option (Str × Str × Str × Str × Str × Str) :=
  match wsTokens line with
  | [kw, s1, tf1, el1, s2, tf2, el2] =>
      if pyUpper kw = pyS "RANGE" ∧ isSignToken s1 = true ∧ isTfToken tf1 = true ∧
         isElemToken el1 = true ∧ isSignToken s2 = true ∧ isTfToken tf2 = true ∧
         isElemToken el2 = true then
        some (s1, tf1, el1, s2, tf2, el2)
      else none
  | _ => none

/-- `_RANGE_CLAUSE_RE` match groups, on the clause text stripped by the
caller; the `DR` token is optional in the source regex. -/
def rangeClauseMatch (clause : Str) : Option (Str × Str × Str × Str) :=
  match wsTokens (pyStrip clause) with
  | [ap, sign, tf, zone] =>
      if isApToken ap = true ∧ isSignToken sign = true ∧ isTfToken tf = true ∧
         isZoneToken zone = true then
        some (ap, sign, tf, zone)
      else none
  | [ap, sign, tf, dr, zone] =>
      if isApToken ap = true ∧ isSignToken sign = true ∧ isTfToken tf = true ∧
         pyUpper dr = pyS "DR" ∧ isZoneToken zone = true then
        some (ap, sign, tf, zone)
      else none
  | _ => none

/-- `normalize_zone` of `notation_to_text`. -/
def normalizeZoneCS (value : Str) : Str :=
  if pyCasefold value = pyS "premium" then pyS "Premium"
  else if pyCasefold value = pyS "equilibrium" then pyS "Equilibrium"
  else if pyCasefold value = pyS "discount" then pyS "Discount"
  else value

/-- `parse_range_clause` of `notation_to_text`: returns the normalized
clause data or an error, exactly one of the two. -/
def parse_range_clause (clause : Str) : Option (Str × Str × Str × Str) × Option Str :=
  match rangeClauseMatch clause with
  | none =>
      (none, some (pyS "Формат диапазона: Actual/Prev +/- TF DR Premium/Equilibrium/Discount"))
  | some (ap, sign, tf, zone) =>
      (some (pyUpper ap, sign, pyUpper tf, normalizeZoneCS zone), none)

/-- `actual_prev_text`. -/
def actualPrevText (v : Str) : Str :=
  if pyUpper v = pyS "ACTUAL" then pyS "актуального" else pyS "предыдущего"

/-- `element_text`. -/
def elementText (sign tf el : Str) : Str :=
  pyS "[" ++ sign ++ pyUpper tf ++ pyS " " ++ el ++ pyS "]"

/-- `dr_text`. -/
def drText (sign tf : Str) : Str :=
  pyS "[" ++ sign ++ pyUpper tf ++ pyS " DR]"

def splitBarsAux : Str → Str → List Str
  | [], acc => [acc.reverse]
  | c :: rest, acc =>
      if c = '|' || c = ';' then acc.reverse :: splitBarsAux rest []
      else splitBarsAux rest (c :: acc)

/-- Split at every `|` or `;` character.  After the caller strips each part
and drops the empty ones this agrees with
`re.split(r"\s*[|;]\s*", line)`, whose only difference is that it also
consumes adjacent whitespace into the delimiters. -/
def splitBars (s : Str) : List Str := splitBarsAux s []

/-- The parts list of the two-element RANGE branch. -/
def rangeTwoParts (line2 : Str) : List Str :=
  ((splitBars line2).map pyStrip).filter (· ≠ [])

/-- `notation_to_text` from `app/ui/current_situation.py`. -/
def notation_to_text (input : Str) : Option Str × Option Str :=
  match nonEmptyLines input with
  | [line1, line2] =>
    match lineInMatch line1 with
    | some (sign1, tf1, el) =>
      (match parse_range_clause line2 with
       | (some (ap, sign2, tf2, zone), _) =>
           (some (pyS "Цена находится внутри " ++ elementText sign1 tf1 el ++
              pyS ". Данный " ++ el ++ pyS " находится в отметках " ++ zone ++ pyS " " ++
              actualPrevText ap ++ pyS " " ++ drText sign2 tf2 ++ pyS "."), none)
       | (none, _) =>
           (none, some (pyS "2 строка: Actual/Prev +/- TF DR Premium/Equilibrium/Discount")))
    | none =>
    match lineRangeTwoMatch line1 with
    | some (s1, tf1, e1, s2, tf2, e2) =>
      (match rangeTwoParts line2 with
       | [part1, part2] =>
         (match parse_range_clause part1, parse_range_clause part2 with
          | (some c1, _), (some c2, _) =>
              let range1 := c1.2.2.2 ++ pyS " " ++ actualPrevText c1.1 ++ pyS " " ++
                drText c1.2.1 c1.2.2.1
              let range2 := c2.2.2.2 ++ pyS " " ++ actualPrevText c2.1 ++ pyS " " ++
                drText c2.2.1 c2.2.2.1
              (some (pyS "Цена находится в диапазоне между " ++ elementText s1 tf1 e1 ++
                 pyS ", расположенного в отметках " ++ range1 ++ pyS ", и " ++
                 elementText s2 tf2 e2 ++ pyS ", расположенного в отметках " ++ range2 ++
                 pyS "."), none)
          | _, _ =>
              (none, some (pyS "2 строка для RANGE: Actual/Prev +/- TF DR Premium/Equilibrium/Discount | Actual/Prev +/- TF DR Premium/Equilibrium/Discount")))
       | _ =>
           (none, some (pyS "2 строка для RANGE с 2 элементами: <диапазон 1> | <диапазон 2>")))
    | none =>
    match lineRangeOneMatch line1 with
    | some (s1, tf1, e1, dir) =>
      (match parse_range_clause line2 with
       | (some (ap, sg2, tf2, zone), _) =>
           let athOrAtl := if pyUpper dir = pyS "UP" then pyS "ATH" else pyS "ATL"
           let rangeText := zone ++ pyS " " ++ actualPrevText ap ++ pyS " " ++ drText sg2 tf2
           (some (pyS "Цена устанавливает " ++ athOrAtl ++
              pyS ". Ближайшая опорная область - " ++ elementText s1 tf1 e1 ++
              pyS ", расположенный в отметках " ++ rangeText ++ pyS "."), none)
       | (none, _) =>
           (none, some (pyS "2 строка для RANGE с 1 элементом: Actual/Prev +/- TF DR Premium/Equilibrium/Discount")))
    | none =>
        (none, some (pyS "1 строка: IN +/- TF Element или RANGE +/- TF Element (UP/DOWN или +/- TF Element)"))
  | _ => (none, some (pyS "Нотация должна содержать ровно 2 непустые строки."))

/-! ## Transition-Action dialect
(`app/ui/transition_scenarios.py`, `transition_notation_to_text`) -/

/-- `_ACTION_HELP` (an implicit concatenation of string literals in the
source). -/
def actionHelp : Str :=
  pyS "CREATE +/- TF Element [ACTUAL/PREV +/- TF DR Premium/Discount/Equilibrium] " ++
  pyS "[WITH +/- TF Element ACTUAL/PREV +/- TF DR Premium/Discount/Equilibrium BREAK/NOT BREAK] " ++
  pyS "или NOT CREATE +/- TF Element " ++
  pyS "[WITH +/- TF Element ACTUAL/PREV +/- TF DR Premium/Discount/Equilibrium] " ++
  pyS "или GET/NOT GET +/- TF Element ACTUAL/PREV +/- TF DR Premium/Discount/Equilibrium"

def actionHelpErr : Option Str × Option Str :=
  (none, some (pyS "Формат нотации: " ++ actionHelp))

/-- `_normalize_zone` of `transition_scenarios.py`. -/
def normalizeZoneTr (value : Str) : Str :=
  let z := pyCasefold (pyStrip value)
  if z = pyS "premium" then pyS "Premium"
  else if z = pyS "discount" then pyS "Discount"
  else if z = pyS "equilibrium" then pyS "Equilibrium"
  else pyStrip value

/-- `_element_desc`. -/
def elementDesc : Str × Str × Str → Str
  | (sign, tf, el) => pyS "[" ++ sign ++ pyUpper tf ++ pyS " " ++ el ++ pyS "]"

/-- `_dr_desc`. -/
def drDesc (sign tf : Str) : Str := pyS "[" ++ sign ++ pyUpper tf ++ pyS " DR]"

/-- `_range_kind_text`. -/
def rangeKindText (v : Str) : Str :=
  if v = pyS "ACTUAL" then pyS "актуального" else pyS "предыдущего"

/-- The `re.sub(r"^(NOT)_(CREATE|GET)\b", r"\1 \2", line, IGNORECASE)`
rewrite: anchored at the start, keeping the original letters of both
groups and replacing only the underscore; the word-boundary requires the
next character to not be a word character. -/
def rewriteNotPrefix (line : Str) : Str :=
  if pyUpper (line.take 4) = pyS "NOT_" then
    let rest := line.drop 4
    if pyUpper (rest.take 6) = pyS "CREATE" ∧
        (rest.drop 6 = [] ∨ isWordChar ((rest.drop 6).headD ' ') = false) then
      line.take 3 ++ pyS " " ++ rest
    else if pyUpper (rest.take 3) = pyS "GET" ∧
        (rest.drop 3 = [] ∨ isWordChar ((rest.drop 3).headD ' ') = false) then
      line.take 3 ++ pyS " " ++ rest
    else line
  else line

/-- `parse_element` (inner function of `transition_notation_to_text`):
`(groups, next index, error)`. -/
def tr_parse_element (tokens : List Str) (start : Nat) :
    Option (Str × Str × Str) × Nat × Option Str :=
  if tokens.length < start + 3 then
    (none, start, some (pyS "Ожидается элемент в формате +/- TF Element."))
  else
    let sign := tokens.getD start []
    let timeframe := tokens.getD (start + 1) []
    let element := tokens.getD (start + 2) []
    if isSignToken sign = false then
      (none, start, some (pyS "Ожидается знак +/- для элемента."))
    else if isTfToken timeframe = false then
      (none, start, some (pyS "Ожидается корректный TF для элемента."))
    else (some (sign, pyUpper timeframe, element), start + 3, none)

/-- `parse_range` (inner function of `transition_notation_to_text`). -/
def tr_parse_range (tokens : List Str) (start : Nat) :
    Option (Str × Str × Str × Str) × Nat × Option Str :=
  if tokens.length < start + 5 then
    (none, start,
     some (pyS "Ожидается диапазон в формате ACTUAL/PREV +/- TF DR Premium/Discount/Equilibrium."))
  else
    let rangeKind := pyUpper (tokens.getD start [])
    let sign := tokens.getD (start + 1) []
    let timeframe := tokens.getD (start + 2) []
    let dr := pyUpper (tokens.getD (start + 3) [])
    let zoneRaw := tokens.getD (start + 4) []
    if ¬ (rangeKind = pyS "ACTUAL" ∨ rangeKind = pyS "PREV") then
      (none, start, some (pyS "Ожидается ACTUAL/PREV для диапазона."))
    else if isSignToken sign = false then
      (none, start, some (pyS "Ожидается знак +/- для диапазона."))
    else if isTfToken timeframe = false then
      (none, start, some (pyS "Ожидается корректный TF для диапазона."))
    else if dr ≠ pyS "DR" then
      (none, start, some (pyS "После TF диапазона должно быть DR."))
    else if ¬ (pyCasefold zoneRaw = pyS "premium" ∨ pyCasefold zoneRaw = pyS "discount" ∨
        pyCasefold zoneRaw = pyS "equilibrium") then
      (none, start, some (pyS "Ожидается Premium/Discount/Equilibrium."))
    else (some (rangeKind, sign, pyUpper timeframe, normalizeZoneTr zoneRaw), start + 5, none)

/-- The final index check and sentence assembly of
`transition_notation_to_text` (CREATE / NOT CREATE path). -/
def trFinish (action : Str) (tokens : List Str) (idx : Nat)
    (primary : Str × Str × Str) (pr : Option (Str × Str × Str × Str))
    (we : Option (Str × Str × Str)) (wr : Option (Str × Str × Str × Str))
    (wm : Option Str) : Option Str × Option Str :=
  if idx ≠ tokens.length then actionHelpErr
  else
    let actionText := if action = pyS "CREATE" then pyS "сформировать" else pyS "не сформировать"
    let text := pyS "Для перехода к сделке цена должна " ++ actionText ++ pyS " " ++
      elementDesc primary
    let prDetails : List Str :=
      match pr with
      | some r =>
          [pyS "расположенный в отметках " ++ r.2.2.2 ++ pyS " " ++ rangeKindText r.1 ++
           pyS " " ++ drDesc r.2.1 r.2.2.1]
      | none => []
    let withDetails : List Str :=
      match we, wr with
      | some e, some r =>
          let withDescription := elementDesc e ++ pyS ", расположенного в отметках " ++
            r.2.2.2 ++ pyS " " ++ rangeKindText r.1 ++ pyS " " ++ drDesc r.2.1 r.2.2.1
          if action = pyS "CREATE" ∧ wm = some (pyS "BREAK") then
            [pyS "с пробитием " ++ withDescription]
          else if action = pyS "CREATE" ∧ wm = some (pyS "NOT BREAK") then
            [pyS "после реакции на " ++ withDescription]
          else [pyS "в ходе взаимодействия с " ++ withDescription]
      | _, _ => []
    let details := prDetails ++ withDetails
    match details with
    | [] => (some (text ++ pyS "."), none)
    | _ => (some (text ++ pyS ", " ++ List.intercalate (pyS " ") details ++ pyS "."), none)

/-- The `WITH` block of `transition_notation_to_text` together with the
`BREAK`/`NOT BREAK` marker handling for `CREATE`. -/
def trWithStep (action : Str) (tokens : List Str) (idx : Nat)
    (primary : Str × Str × Str) (pr : Option (Str × Str × Str × Str)) :
    Option Str × Option Str :=
  if idx < tokens.length then
    if pyUpper (tokens.getD idx []) ≠ pyS "WITH" then
      if action = pyS "NOT CREATE" then
        (none, some (pyS "Для NOT CREATE после элемента допускается только опциональный блок WITH."))
      else actionHelpErr
    else
      match tr_parse_element tokens (idx + 1) with
      | (_, _, some e) => (none, some e)
      | (none, _, none) => (none, some (pyS "После WITH ожидается элемент."))
      | (some we, idxA, none) =>
        match tr_parse_range tokens idxA with
        | (_, _, some e) => (none, some e)
        | (wr, idxB, none) =>
          if action = pyS "CREATE" then
            if tokens.length ≤ idxB then
              (none, some (pyS "После WITH блока для CREATE укажите BREAK или NOT BREAK."))
            else
              let marker := pyUpper (tokens.getD idxB [])
              if marker = pyS "BREAK" then
                trFinish action tokens (idxB + 1) primary pr (some we) wr (some (pyS "BREAK"))
              else if marker = pyS "NOT_BREAK" then
                trFinish action tokens (idxB + 1) primary pr (some we) wr (some (pyS "NOT BREAK"))
              else if marker = pyS "NOT" ∧ idxB + 1 < tokens.length ∧
                  pyUpper (tokens.getD (idxB + 1) []) = pyS "BREAK" then
                trFinish action tokens (idxB + 2) primary pr (some we) wr (some (pyS "NOT BREAK"))
              else
                (none, some (pyS "После WITH блока для CREATE допускаются только BREAK или NOT BREAK."))
          else trFinish action tokens idxB primary pr (some we) wr none
  else trFinish action tokens idx primary pr none none none

/-- The CREATE / NOT CREATE continuation after the primary element:
optional zone clause (CREATE only), then the optional WITH block. -/
def trCreateFlow (action : Str) (tokens : List Str) (idx : Nat)
    (primary : Str × Str × Str) : Option Str × Option Str :=
  if action = pyS "CREATE" ∧ idx < tokens.length ∧
      isApToken (tokens.getD idx []) = true then
    match tr_parse_range tokens idx with
    | (_, _, some e) => (none, some e)
    | (pr, idx2, none) => trWithStep action tokens idx2 primary pr
  else trWithStep action tokens idx primary none

/-- The continuation of `transition_notation_to_text` after the action
keyword has been recognised. -/
def trAfterAction (action : Str) (idx0 : Nat) (tokens : List Str) :
    Option Str × Option Str :=
  match tr_parse_element tokens idx0 with
  | (_, _, some e) => (none, some e)
  | (none, _, none) => (none, some (pyS "Неверный формат элемента."))
  | (some primary, idx1, none) =>
    if action = pyS "GET" ∨ action = pyS "NOT GET" then
      match tr_parse_range tokens idx1 with
      | (_, _, some e) => (none, some e)
      | (none, _, none) => (none, some (pyS "Неверный формат диапазона."))
      | (some rg, idx2, none) =>
        if idx2 ≠ tokens.length then actionHelpErr
        else
          let actionText := if action = pyS "GET" then pyS "получить" else pyS "не получить"
          (some (pyS "Для перехода к сделке цена должна " ++ actionText ++
             pyS " реакцию от " ++ elementDesc primary ++
             pyS ", расположенного в отметках " ++ rg.2.2.2 ++ pyS " " ++
             rangeKindText rg.1 ++ pyS " " ++ drDesc rg.2.1 rg.2.2.1 ++ pyS "."), none)
    else trCreateFlow action tokens idx1 primary

/-- The token-level body of `transition_notation_to_text`. -/
def transitionTokens (tokens : List Str) : Option Str × Option Str :=
  match tokens with
  | [] => actionHelpErr
  | t0 :: _ =>
    let first := pyUpper t0
    if first = pyS "NOT" then
      if tokens.length < 2 then actionHelpErr
      else
        let second := pyUpper (tokens.getD 1 [])
        if second = pyS "CREATE" then trAfterAction (pyS "NOT CREATE") 2 tokens
        else if second = pyS "GET" then trAfterAction (pyS "NOT GET") 2 tokens
        else actionHelpErr
    else if first = pyS "CREATE" then trAfterAction (pyS "CREATE") 1 tokens
    else if first = pyS "GET" then trAfterAction (pyS "GET") 1 tokens
    else actionHelpErr

/-- `transition_notation_to_text` from `app/ui/transition_scenarios.py`. -/
def transition_notation_to_text (input : Str) : Option Str × Option Str :=
  match nonEmptyLines input with
  | [line0] =>
      let line := rewriteNotPrefix line0
      let tokens := if pyStrip line = [] then [] else wsTokens (pyStrip line)
      transitionTokens tokens
  | _ => (none, some (pyS "Нотация должна содержать ровно 1 непустую строку."))

/-! ## Transition-Meaning dialect
(`app/ui/transition_scenarios.py`, `transition_meaning_notation_to_text`)

`_MEANING_RE` is embedded character-wise; the greedy `\s+` separators
before a keyword starting with a non-whitespace letter always consume a
maximal whitespace run, and the final `(.+)$` group is the remainder after
the last of those runs, taking into account that an unanchored `$` also
matches just before a final newline and that `.` does not match a
newline. -/

/-- A `\s+` separator: requires at least one whitespace character and
consumes the maximal whitespace run. -/
def dropWs1 : Str → Option Str
  | [] => none
  | c :: rest => if isPySpace c then some (rest.dropWhile isPySpace) else none

/-- The `(.+)$` tail after a greedy `\s+`, applied to the remainder
`rest`: fails when `rest` has no leading whitespace or nothing matchable
by `.+` remains. -/
def restTail (rest : Str) : Option Str :=
  let base := if rest.getLast? = some '\n' then rest.dropLast else rest
  let w := base.takeWhile isPySpace
  if w.length = base.length then
    if 2 ≤ base.length ∧ base.getLast? ≠ some '\n' then some [base.getLastD ' '] else none
  else
    let g := base.drop w.length
    if 1 ≤ w.length ∧ g.all (· ≠ '\n') = true then some g else none

/-- One of two literal keywords, case-insensitively, as a prefix. -/
def keyword2 (s : Str) (a b : String) : Option (Str × Str) :=
  if pyUpper (s.take (pyS a).length) = pyS a then
    some (s.take (pyS a).length, s.drop (pyS a).length)
  else if pyUpper (s.take (pyS b).length) = pyS b then
    some (s.take (pyS b).length, s.drop (pyS b).length)
  else none

/-- The `(ADV|NOT[\s_]+ADV)` leading group of `_MEANING_RE`: returns the
matched raw text and the remainder. -/
def advPart (line : Str) : Option (Str × Str) :=
  if pyUpper (line.take 3) = pyS "ADV" then some (line.take 3, line.drop 3)
  else if pyUpper (line.take 3) = pyS "NOT" then
    let rest := line.drop 3
    let sep := rest.takeWhile (fun c => isPySpace c || c = '_')
    if sep.isEmpty then none
    else
      let rest2 := rest.drop sep.length
      if pyUpper (rest2.take 3) = pyS "ADV" then
        some (line.take (3 + sep.length + 3), rest2.drop 3)
      else none
  else none

/-- `_MEANING_RE` match groups `(advantage, side, level, tail)`. -/
def meaningMatch (line : Str) : Option (Str × Str × Str × Str) :=
  match advPart line with
  | none => none
  | some (advRaw, r1) =>
    match dropWs1 r1 with
    | none => none
    | some r2 =>
      match keyword2 r2 "BUY" "SELL" with
      | none => none
      | some (sideRaw, r3) =>
        match dropWs1 r3 with
        | none => none
        | some r4 =>
          match keyword2 r4 "UP" "LOW" with
          | none => none
          | some (levelRaw, r5) =>
            match restTail r5 with
            | none => none
            | some tail => some (advRaw, sideRaw, levelRaw, tail)

/-- `_normalize_action`. -/
def collapseWsAux : Str → Bool → Str
  | [], _ => []
  | c :: rest, prevSpace =>
      if isPySpace c then
        if prevSpace then collapseWsAux rest true else ' ' :: collapseWsAux rest true
      else c :: collapseWsAux rest false

/-- `re.sub(r"\s+", " ", s)`. -/
def collapseWs (s : Str) : Str := collapseWsAux s false

def normalizeAction (v : Str) : Str :=
  pyUpper (collapseWs (pyStrip (v.map (fun c => if c = '_' then ' ' else c))))

/-- `_MEANING_RANGE_RE` match groups; the tail it is applied to contains
no newline and has non-whitespace first and last characters, on which the
both-ends-anchored, `\s+`-separated regex is whole-token matching. -/
def meaningRangeMatch (tail : Str) : Option (Str × Str × Str × Str) :=
  if tail ≠ [] ∧ isPySpace (tail.headD ' ') = false ∧
      isPySpace (tail.getLastD ' ') = false then
    match wsTokens tail with
    | [rk, sgn, tf, dr, zone] =>
        if isApToken rk = true ∧ isSignToken sgn = true ∧ isTfToken tf = true ∧
           pyUpper dr = pyS "DR" ∧
           (pyCasefold zone = pyS "premium" ∨ pyCasefold zone = pyS "discount" ∨
            pyCasefold zone = pyS "equilibrium") then
          some (rk, sgn, tf, zone)
        else none
    | _ => none
  else none

/-- `_MEANING_ELEMENT_RE` match groups (character-wise; the trailing
`(.+)$` group is the remainder after the timeframe token). -/
def meaningElementMatch (tail : Str) : Option (Str × Str × Str) :=
  match tail with
  | [] => none
  | c :: rest =>
    if c = '+' ∨ c = '-' then
      match dropWs1 rest with
      | none => none
      | some r2 =>
        let tf := r2.takeWhile isAsciiAlnum
        if tf.isEmpty then none
        else
          match restTail (r2.drop tf.length) with
          | none => none
          | some ename => some ([c], tf, ename)
    else none

def meaningHelp : Str :=
  pyS "ADV/NOT ADV BUY/SELL UP/LOW (+/- TF Element | ACTUAL/PREV +/- TF DR Premium/Discount/Equilibrium)"

/-- `transition_meaning_notation_to_text` from
`app/ui/transition_scenarios.py`. -/
def transition_meaning_notation_to_text (input : Str) : Option Str × Option Str :=
  match nonEmptyLines input with
  | [line] =>
    match meaningMatch line with
    | none => (none, some (pyS "Notation format: " ++ meaningHelp))
    | some (advRaw, sideRaw, levelRaw, tail) =>
      let advantage := normalizeAction advRaw
      let side := pyUpper sideRaw
      let level := pyUpper levelRaw
      let advantageText :=
        if advantage = pyS "ADV" then pyS "преимущество" else pyS "отсутствие преимущества"
      let sideText :=
        if side = pyS "BUY" then pyS "покупателей над продавцами"
        else pyS "продавцов над покупателями"
      let levelText := if level = pyS "UP" then pyS "выше" else pyS "ниже"
      match meaningRangeMatch tail with
      | some (rkRaw, sgn, tf, zoneRaw) =>
          let rangeKindTxt :=
            if pyUpper rkRaw = pyS "ACTUAL" then pyS "актуального" else pyS "предыдущего"
          (some (pyS "Такое ценообразование будет означать " ++ advantageText ++ pyS " " ++
             sideText ++ pyS " " ++ levelText ++ pyS " отметок " ++ normalizeZoneTr zoneRaw ++
             pyS " " ++ rangeKindTxt ++ pyS " [" ++ sgn ++ pyUpper tf ++ pyS " DR]." ), none)
      | none =>
        match meaningElementMatch tail with
        | some (esign, etf, ename) =>
            (some (pyS "Данное ценообразование будет означать " ++ advantageText ++ pyS " " ++
               sideText ++ pyS " " ++ levelText ++ pyS " [" ++ esign ++ pyUpper etf ++
               pyS " " ++ pyStrip ename ++ pyS "]."), none)
        | none =>
            (none, some (pyS "After ADV/NOT ADV BUY/SELL UP/LOW specify either +/- TF Element " ++
               pyS "or ACTUAL/PREV +/- TF DR Premium/Discount/Equilibrium."))
  | _ => (none, some (pyS "Notation must contain exactly one non-empty line."))

/-! ## Markdown matchers (`app/core/plans.py`)

`_TITLE_RE = (?m)^\s*#\s+(.+?)\s*$` and `_H2_RE = (?m)^##\s+(.+?)\s*$`
are embedded by their derived deterministic semantics on texts whose only
newline is LF (`from_markdown` normalizes CR and CRLF to LF first, and in
multiline mode only LF acts as a line boundary for the anchors):

* a match candidate starts at position 0 or just after an LF;
* `\s+`/`\s*` before the content greedily consume the maximal whitespace
  run; when a non-whitespace character follows the run, the lazy group
  `(.+?)` covers from it up to the last non-whitespace character of its
  line, and the trailing `\s*$` then extends the match to the last LF of
  the following whitespace run (or to the end of the text when that run
  reaches it); when the whitespace run reaches the end of the text, the
  group backtracks to the last non-LF whitespace character after the
  minimum required run and the match extends to the end;
* matches are collected left to right without overlap.

These semantics were cross-checked against CPython's `re` on a corpus. -/

/-- Largest index of `r` whose character satisfies `p`. -/
def findIdxRev (p : Char → Bool) (r : Str) : Option Nat :=
  (r.reverse.findIdx? p).map (fun j => r.length - 1 - j)

/-- End offset of `\s*$` after the group content: the whitespace run is
consumed up to the end of the text, or up to its last LF.  (The `none`
branch cannot arise at call sites: the run after the trimmed line content
always reaches the line's LF or the end of the text.) -/
def tailEndOffset (after : Str) : Nat :=
  let r := after.takeWhile isPySpace
  if r.length = after.length then after.length
  else
    match findIdxRev (· = '\n') r with
    | some j => j
    | none => 0

/-- `\s…(.+?)\s*$` at the head of `s`, where `minWs` is the minimal
whitespace-run length (1 for `\s+`, 0 for `\s*`): returns the consumed
length and the group. -/
def tailMatchS (s : Str) (minWs : Nat) : Option (Nat × Str) :=
  let run := s.takeWhile isPySpace
  if run.length < minWs then none
  else
    match s.drop run.length with
    | [] =>
      (match findIdxRev (fun c => ¬ c = '\n') run with
       | some k => if minWs ≤ k then some (s.length, [run.getD k ' ']) else none
       | none => none)
    | c :: rest =>
      let line := (c :: rest).takeWhile (· ≠ '\n')
      let content := pyRstrip line
      some (run.length + content.length + tailEndOffset ((c :: rest).drop content.length),
        content)

/-- `_H2_RE` at the start of a line suffix. -/
def h2MatchS (s : Str) : Option (Nat × Str) :=
  match s with
  | '#' :: '#' :: rest => (tailMatchS rest 1).map (fun r => (r.1 + 2, r.2))
  | _ => none

/-- `_TITLE_RE` at the start of a line suffix (its leading `\s*` may cross
line boundaries, so the hash is the first non-whitespace character after
the candidate position). -/
def titleMatchS (s : Str) : Option (Nat × Str) :=
  let run := s.takeWhile isPySpace
  match s.drop run.length with
  | '#' :: rest => (tailMatchS rest 1).map (fun r => (run.length + 1 + r.1, r.2))
  | _ => none

def lineStartSuffixesAux : Str → Nat → List (Nat × Str)
  | [], _ => []
  | c :: rest, p =>
      if c = '\n' then (p + 1, rest) :: lineStartSuffixesAux rest (p + 1)
      else lineStartSuffixesAux rest (p + 1)

/-- All positions where `(?m)^` matches, with the suffix at each. -/
def lineStartSuffixes (text : Str) : List (Nat × Str) :=
  (0, text) :: lineStartSuffixesAux text 0

/-- All candidate matches `(start, end, group)` in position order. -/
def matchesAt {α : Type} (cands : List (Nat × Str)) (m : Str → Option (Nat × α)) :
    List (Nat × Nat × α) :=
  cands.filterMap (fun c => (m c.2).map (fun r => (c.1, c.1 + r.1, r.2)))

/-- Keep the leftmost match and every later match starting at or after the
previous kept match's end (`re.finditer` non-overlap policy). -/
def selectNonOverlapping {α : Type} : Nat → List (Nat × Nat × α) → List (Nat × Nat × α)
  | _, [] => []
  | q, m :: rest =>
      if q ≤ m.1 then m :: selectNonOverlapping m.2.1 rest
      else selectNonOverlapping q rest

/-- `_H2_RE.finditer`. -/
def h2Find (text : Str) : List (Nat × Nat × Str) :=
  selectNonOverlapping 0 (matchesAt (lineStartSuffixes text) h2MatchS)

/-- `_TITLE_RE.search`. -/
def titleFind (text : Str) : Option (Nat × Nat × Str) :=
  (matchesAt (lineStartSuffixes text) titleMatchS).head?

/-- `text[a:b]`. -/
def slice (text : Str) (a b : Nat) : Str := (text.drop a).take (b - a)

def normalizeNewlinesAux : Str → Bool → Str
  | [], _ => []
  | c :: rest, afterCr =>
      if c = '\n' ∧ afterCr = true then normalizeNewlinesAux rest false
      else if c = '\r' then '\n' :: normalizeNewlinesAux rest true
      else c :: normalizeNewlinesAux rest false

/-- `markdown.replace("\r\n", "\n").replace("\r", "\n")` (the `afterCr`
flag swallows the LF of a CRLF pair, whose CR already produced the
replacement LF). -/
def normalizeNewlines (s : Str) : Str := normalizeNewlinesAux s false

/-! ## The plan model (`app/core/plans.py`) -/

def heading1txt : Str := pyS "1. Описание текущей ситуации"

def heading2txt : Str := pyS "2. Описание сценариев перехода к сделкам"

def heading3txt : Str := pyS "3. Описание сценариев сделок"

/-- `_normalize_heading`. -/
def normalizeHeading (v : Str) : Str := pyCasefold (collapseWs (pyStrip v))

/-- `_CANONICAL_BY_HEADING.get`, with the three canonical keys rendered as
1, 2, 3 (for `block1`, `block2`, `block3`). -/
def canonicalKey? (n : Str) : Option Nat :=
  if n = normalizeHeading heading1txt then some 1
  else if n = normalizeHeading heading2txt then some 2
  else if n = normalizeHeading heading3txt then some 3
  else none

structure TradingPlan where
  title : Str
  block1 : Str := []
  block2 : Str := []
  block3 : Str := []
  extras : Str := []
  raw_markdown : Str := []
  structured : Bool := true
deriving DecidableEq, Repr

/-- The loop over the `_H2_RE` matches in `TradingPlan.from_markdown`:
threads `(sections, extras_chunks, encountered_canonical)`. -/
def h2Loop (text : Str) : List (Nat × Nat × Str) → List (Nat × Str) → List Str → List Str →
    List (Nat × Str) × List Str × List Str
  | [], sections, extras, enc => (sections, extras, enc)
  | (_, e, g) :: rest, sections, extras, enc =>
      let bodyEnd := match rest with
        | (p2, _, _) :: _ => p2
        | [] => text.length
      let heading := pyStrip g
      let normalized := normalizeHeading heading
      let body := pyStripNl (slice text e bodyEnd)
      let extraSection := pyStripNl (pyS "## " ++ heading ++ pyS "\n" ++
        (if body.isEmpty then [] else pyRstrip body ++ pyS "\n"))
      match canonicalKey? normalized with
      | some k =>
          if (List.lookup k sections).isNone then
            h2Loop text rest (sections ++ [(k, body)]) extras (enc ++ [normalized])
          else h2Loop text rest sections (extras ++ [extraSection]) enc
      | none => h2Loop text rest sections (extras ++ [extraSection]) enc

/-- `encountered_canonical.index(ch, position + 1)`. -/
def idxFrom (l : List Str) (x : Str) (start : Nat) : Option Nat :=
  ((l.drop start).findIdx? (· == x)).map (· + start)

/-- The canonical-order check of `from_markdown` (the loop over
`_CANONICAL_ORDER` searching `encountered_canonical` after the previous
position). -/
def orderedCheck (enc : List Str) : Bool :=
  match idxFrom enc (normalizeHeading heading1txt) 0 with
  | none => false
  | some p1 =>
    match idxFrom enc (normalizeHeading heading2txt) (p1 + 1) with
    | none => false
    | some p2 =>
      match idxFrom enc (normalizeHeading heading3txt) (p2 + 1) with
      | none => false
      | some _ => true

/-- `TradingPlan.from_markdown`. -/
def from_markdown (markdown : Str) (fallbackTitle : Str := pyS "Без названия") :
    TradingPlan :=
  let text := normalizeNewlines markdown
  let titleM := titleFind text
  let title := match titleM with
    | some (_, _, g) => pyStrip g
    | none => fallbackTitle
  match h2Find text with
  | [] => { title := title, raw_markdown := text, structured := false }
  | m :: ms =>
    let prefixStart := match titleM with
      | some (_, e, _) => e
      | none => 0
    let pre := slice text prefixStart m.1
    let extras0 : List Str := if (pyStrip pre).isEmpty then [] else [pyStripNl pre]
    let res := h2Loop text (m :: ms) [] extras0 []
    let sections := res.1
    let allPresent := (List.lookup 1 sections).isSome && (List.lookup 2 sections).isSome &&
      (List.lookup 3 sections).isSome
    let structured := allPresent && orderedCheck res.2.2
    if structured then
      { title := title,
        block1 := (List.lookup 1 sections).getD [],
        block2 := (List.lookup 2 sections).getD [],
        block3 := (List.lookup 3 sections).getD [],
        extras := List.intercalate (pyS "\n\n")
          (res.2.1.filter (fun c => ¬ (pyStrip c).isEmpty)),
        raw_markdown := text,
        structured := true }
    else { title := title, raw_markdown := text, structured := false }

/-- `TradingPlan.normalize_raw`. -/
def normalize_raw (rawMarkdown : Str) (title : Str) : TradingPlan :=
  { title := if (pyStrip title).isEmpty then pyS "Новый торговый план" else pyStrip title,
    block1 := pyStripNl rawMarkdown,
    block2 := [],
    block3 := [],
    extras := [],
    raw_markdown := [],
    structured := true }

/-- One canonical section of `TradingPlan.to_markdown`'s line list. -/
def sectionLines (heading : Str) (body : Str) : List Str :=
  let b := pyStripNl body
  [pyS "## " ++ heading] ++ (if b.isEmpty then [] else [b]) ++ [[]]

/-- `TradingPlan.to_markdown`. -/
def to_markdown (p : TradingPlan) : Str :=
  let title := if (pyStrip p.title).isEmpty then pyS "Без названия" else pyStrip p.title
  let lines := [pyS "# " ++ title, ([] : Str)] ++
    sectionLines heading1txt p.block1 ++ sectionLines heading2txt p.block2 ++
    sectionLines heading3txt p.block3
  let extras := pyStripNl p.extras
  let lines := lines ++ (if extras.isEmpty then [] else [extras, ([] : Str)])
  pyRstrip (List.intercalate (pyS "\n") lines) ++ pyS "\n"

/-! ## Transition block entry parsing
(`app/ui/transition_scenarios.py`, `TransitionScenariosEditor._parse_entries`,
`_split_scenario_chunks`, `_parse_chunk`, `_extract_comment`)

The fields `nota`, `meaningNota`, `whyText` embed the source fields
`notation`, `meaning_notation`, `why_text` of `TransitionScenarioData`. -/

structure TransitionScenarioImageData where
  image_path : Str
  timeframe : Str := []
deriving DecidableEq, Repr

structure TransitionScenarioData where
  images : List TransitionScenarioImageData := []
  nota : Str := []
  meaningNota : Str := []
  whyText : Str := []
deriving DecidableEq, Repr

def allSuffixesAux : Str → Nat → List (Nat × Str)
  | [], _ => []
  | c :: rest, p => (p, c :: rest) :: allSuffixesAux rest (p + 1)

/-- Every position of the text with its suffix (for unanchored searches). -/
def allSuffixes (text : Str) : List (Nat × Str) := allSuffixesAux text 0

/-- The image regex `!\[[^\]]*]\(([^)]+)\)` at the head of a suffix:
deterministic, since the alt text runs to the first `]` and the path to
the first `)`. -/
def imageMatchS (s : Str) : Option (Nat × Str) :=
  match s with
  | '!' :: '[' :: rest =>
    let alt := rest.takeWhile (· ≠ ']')
    (match rest.drop alt.length with
     | ']' :: '(' :: rest2 =>
       let path := rest2.takeWhile (· ≠ ')')
       if path.isEmpty then none
       else
         match rest2.drop path.length with
         | ')' :: _ => some (2 + alt.length + 2 + path.length + 1, path)
         | _ => none
     | _ => none)
  | _ => none

/-- `_IMAGE_RE.finditer`. -/
def imageFind (text : Str) : List (Nat × Nat × Str) :=
  selectNonOverlapping 0 (matchesAt (allSuffixes text) imageMatchS)

/-- `(?mi)^####\s+.+$` at the start of a line suffix (`.+` is greedy, so
the match runs to the end of the line holding the first non-whitespace
character after the hashes; when the whitespace after the hashes reaches
the end of the text, `\s+` backtracks as in `tailMatchS`). -/
def h4MatchS (s : Str) : Option Nat :=
  match s with
  | '#' :: '#' :: '#' :: '#' :: rest =>
    let run := rest.takeWhile isPySpace
    if run.isEmpty then none
    else
      match rest.drop run.length with
      | [] =>
        (match findIdxRev (fun c => ¬ c = '\n') run with
         | some k =>
             if 1 ≤ k then some (4 + k + ((run.drop k).takeWhile (· ≠ '\n')).length)
             else none
         | none => none)
      | c :: r2 => some (4 + run.length + ((c :: r2).takeWhile (· ≠ '\n')).length)
  | _ => none

/-- The `####` heading finditer of `_split_scenario_chunks`. -/
def h4Find (text : Str) : List (Nat × Nat × Unit) :=
  selectNonOverlapping 0
    (matchesAt (lineStartSuffixes text) (fun s => (h4MatchS s).map (fun n => (n, ()))))

def chunksFromStarts (text : Str) : List Nat → List Str
  | [] => []
  | p :: rest =>
    let e := match rest with
      | p2 :: _ => p2
      | [] => text.length
    let chunk := pyStrip (slice text p e)
    if chunk.isEmpty then chunksFromStarts text rest else chunk :: chunksFromStarts text rest

/-- `s.split("\n")` keeping empty parts. -/
def splitNlAux : Str → Str → List Str
  | [], acc => [acc.reverse]
  | c :: rest, acc =>
      if c = '\n' then acc.reverse :: splitNlAux rest []
      else splitNlAux rest (c :: acc)

def splitNl (s : Str) : List Str := splitNlAux s []

/-- A line matched (after stripping) by the separator regex
`^\s*---+\s*$`: only whitespace around a run of three or more dashes. -/
def isSepLine (line : Str) : Bool :=
  let t := pyStrip line
  3 ≤ t.length && t.all (· = '-')

def sepGroups : List Str → List (List Str)
  | [] => [[]]
  | l :: rest =>
      let gs := sepGroups rest
      if isSepLine l then [] :: gs
      else (l :: gs.headD []) :: gs.tail

/-- `re.split(r"(?mi)^\s*---+\s*$", text)` up to the stripping and
dropping of empty parts performed by the caller: the separator matches
may absorb adjacent whitespace-only material, which stripping removes
either way, so splitting the text at its separator lines is equivalent. -/
def splitSepParts (text : Str) : List Str :=
  (sepGroups (splitNl text)).map (List.intercalate (pyS "\n"))

/-- `TransitionScenariosEditor._split_scenario_chunks`. -/
def splitScenarioChunks (text : Str) : List Str :=
  match h4Find text with
  | [] => ((splitSepParts text).map pyStrip).filter (· ≠ [])
  | hs => chunksFromStarts text (hs.map (·.1))

/-- The closing scan of `<!-- … -->`: does a whitespace run followed by
the literal close delimiter start here? -/
def commentCloseAt (s : Str) : Bool := (s.dropWhile isPySpace).take 3 = pyS "-->"

/-- The lazy group `(.*?)` of `_extract_comment`'s regex: the shortest
prefix whose remainder is whitespace followed by the close delimiter. -/
def commentContent : Str → Option Str
  | [] => none
  | c :: rest =>
      if commentCloseAt (c :: rest) then some []
      else (commentContent rest).map (fun g => c :: g)

/-- `(?is)<!--\s*MARKER\s*(.*?)\s*-->` at the head of a suffix. -/
def commentMatchS (marker : Str) (s : Str) : Option Str :=
  if s.take 4 = pyS "<!--" then
    let r1 := (s.drop 4).dropWhile isPySpace
    if pyUpper (r1.take marker.length) = pyUpper marker then
      commentContent ((r1.drop marker.length).dropWhile isPySpace)
    else none
  else none

/-- `TransitionScenariosEditor._extract_comment`. -/
def extractComment (chunk : Str) (marker : Str) : Str :=
  match ((allSuffixes chunk).filterMap (fun c => commentMatchS marker c.2)).head? with
  | some g => pyStrip g
  | none => []

/-- The terminator `(?:\n\s*Text:|\Z)` of the legacy notation block. -/
def notaTermAt : Str → Bool
  | '\n' :: r => pyUpper ((r.dropWhile isPySpace).take 5) = pyS "TEXT:"
  | _ => false

def notaContent : Str → Str
  | [] => []
  | c :: rest => if notaTermAt (c :: rest) then [] else c :: notaContent rest

/-- `(?is)Notation:\s*\n(.*?)(?:\n\s*Text:|\Z)` at the head of a suffix:
the greedy `\s*\n` consumes through the last newline of the whitespace
run after the label. -/
def notaMatchS (s : Str) : Option Str :=
  if pyUpper (s.take 9) = pyS "NOTATION:" then
    let rest := s.drop 9
    let run := rest.takeWhile isPySpace
    match findIdxRev (· = '\n') run with
    | none => none
    | some m => some (notaContent (rest.drop (m + 1)))
  else none

def notaSearch (chunk : Str) : Option Str :=
  ((allSuffixes chunk).filterMap (fun c => notaMatchS c.2)).head?

/-- `(?is)\*\*(?:Why\?|Почему\?):\*\*\s*(.*)$` at the head of a suffix:
with DOTALL the greedy `(.*)` runs to the end of the text. -/
def whyMatchS (s : Str) : Option Str :=
  if s.take 2 = pyS "**" then
    let r := s.drop 2
    let afterKw : Option Str :=
      if pyUpper (r.take 4) = pyS "WHY?" then some (r.drop 4)
      else if pyUpper (r.take 7) = pyS "ПОЧЕМУ?" then some (r.drop 7)
      else none
    match afterKw with
    | some r2 =>
        if r2.take 3 = pyS ":**" then some ((r2.drop 3).dropWhile isPySpace)
        else none
    | none => none
  else none

def whySearch (chunk : Str) : Str :=
  match ((allSuffixes chunk).filterMap (fun c => whyMatchS c.2)).head? with
  | some g => pyStrip g
  | none => []

/-- `(?mi)^\s*(?:\*\*TF:\*\*|TF:)\s*(.+?)\s*$` at the start of a line
suffix. -/
def tfMatchS (s : Str) : Option Str :=
  let run := s.takeWhile isPySpace
  let rest := s.drop run.length
  if pyUpper (rest.take 7) = pyS "**TF:**" then (tailMatchS (rest.drop 7) 0).map (·.2)
  else if pyUpper (rest.take 3) = pyS "TF:" then (tailMatchS (rest.drop 3) 0).map (·.2)
  else none

def tfSearch (sect : Str) : Str :=
  match ((lineStartSuffixes sect).filterMap (fun c => tfMatchS c.2)).head? with
  | some g => pyStrip g
  | none => []

/-- The image loop of `_parse_chunk`. -/
def parseChunkImages (chunk : Str) : List (Nat × Nat × Str) → List TransitionScenarioImageData
  | [] => []
  | (_, e, path) :: rest =>
    let send := match rest with
      | (p2, _, _) :: _ => p2
      | [] => chunk.length
    { image_path := pyStrip path, timeframe := tfSearch (slice chunk e send) } ::
      parseChunkImages chunk rest

/-- `TransitionScenariosEditor._parse_chunk`. -/
def transitionParseChunk (chunk : Str) : Option TransitionScenarioData :=
  match imageFind chunk with
  | [] => none
  | m :: ms =>
    let images := parseChunkImages chunk (m :: ms)
    let nota0 := extractComment chunk (pyS "TRANSITION_NOTATION")
    let nota := if nota0.isEmpty then
        (match notaSearch chunk with
         | some g => pyStrip g
         | none => [])
      else nota0
    let meaningN := extractComment chunk (pyS "TRANSITION_MEANING_NOTATION")
    let why0 := extractComment chunk (pyS "TRANSITION_WHY")
    let why := if why0.isEmpty then whySearch chunk else why0
    some { images := images, nota := nota, meaningNota := meaningN, whyText := why }

/-- `TransitionScenariosEditor._parse_entries`. -/
def transitionParseEntries (markdown : Str) : List TransitionScenarioData :=
  let text := pyStrip markdown
  if text.isEmpty then []
  else (splitScenarioChunks text).filterMap transitionParseChunk

/-! ## Derived and specification-side definitions -/

/-- A notation parser result in which exactly one component is present,
and the present component is non-empty. -/
def wellFormedResult (r : Option Str × Option Str) : Prop :=
  (∃ t, r.1 = some t ∧ r.2 = none ∧ t ≠ []) ∨
  (∃ e, r.1 = none ∧ r.2 = some e ∧ e ≠ [])

def canonName1 : Str := normalizeHeading heading1txt

def canonName2 : Str := normalizeHeading heading2txt

def canonName3 : Str := normalizeHeading heading3txt

/-- The normalized second-level headings of a document, in document
order. -/
def docHeadings (markdown : Str) : List Str :=
  (h2Find (normalizeNewlines markdown)).map (fun m => normalizeHeading (pyStrip m.2.2))

/-- Modelled on the spec: all three canonical headings were found and
their first-occurrence positions are monotonically increasing in
canonical order. -/
def canonicalInOrder (hs : List Str) : Bool :=
  match idxFrom hs canonName1 0, idxFrom hs canonName2 0, idxFrom hs canonName3 0 with
  | some i, some j, some k => decide (i < j) && decide (j < k)
  | _, _, _ => false

/-- The first-occurrence subsequence of canonical headings (the abstract
content of `encountered_canonical`). -/
def encOf : List Str → List Str → List Str
  | [], enc => enc
  | n :: rest, enc =>
      if (canonicalKey? n).isSome && !enc.contains n then encOf rest (enc ++ [n])
      else encOf rest enc

/-- A three-stage scan equivalent to the canonical-order condition:
stage `k` records that the first `k` canonical headings have been seen in
order; seeing a later canonical heading too early fails definitively. -/
def scan3 : List Str → Nat → Bool
  | [], st => st == 3
  | n :: rest, st =>
      if st == 3 then true
      else if st == 0 then
        if n == canonName1 then scan3 rest 1
        else if n == canonName2 || n == canonName3 then false
        else scan3 rest 0
      else if st == 1 then
        if n == canonName2 then scan3 rest 2
        else if n == canonName3 then false
        else scan3 rest 1
      else if n == canonName3 then scan3 rest 3
      else scan3 rest 2

/-- Modelled on the spec's grammar for `GET`/`NOT GET`: the action keyword
(at positions before `i`) is followed by a primary element
(sign, timeframe, free element name) and then exactly one zone clause
`ACTUAL/PREV sign TF DR zone`, with nothing after it. -/
def getShapeSpec (ts : List Str) (i : Nat) : Prop :=
  ts.length = i + 8 ∧ isSignToken (ts.getD i []) = true ∧ isTfToken (ts.getD (i + 1) []) = true ∧
  isApToken (ts.getD (i + 3) []) = true ∧ isSignToken (ts.getD (i + 4) []) = true ∧
  isTfToken (ts.getD (i + 5) []) = true ∧ pyUpper (ts.getD (i + 6) []) = pyS "DR" ∧
  isZoneToken (ts.getD (i + 7) []) = true

/-- Join tokens with single spaces. -/
def joinTokens : List Str → Str
  | [] => []
  | t :: ts =>
      match ts with
      | [] => t
      | _ :: _ => t ++ ' ' :: joinTokens ts

/-- A non-empty whitespace-free token. -/
def tokenOk (t : Str) : Bool := !t.isEmpty && t.all (fun c => !isPySpace c)

/-- Substring test. -/
def strContains (hay needle : Str) : Bool := hay.tails.any (fun t => needle.isPrefixOf t)

/-- A chunk holding at least one image marker. -/
def hasImage (chunk : Str) : Bool := !(imageFind chunk).isEmpty

/-- The chunk list `_parse_entries` works through (empty when the body
strips to nothing). -/
def chunksOfBody (body : Str) : List Str :=
  if (pyStrip body).isEmpty then [] else splitScenarioChunks (pyStrip body)

/-- Round-trip hygiene for a plan title: a single line (no LF, no CR). -/
def titleOk (t : Str) : Bool := t.all (fun c => c != '\n' && c != '\r')

/-- No line of the body begins with `##`. -/
def noH2Lines (b : Str) : Bool :=
  (lineStartSuffixes b).all (fun qs => qs.2.take 2 != pyS "##")

/-- Round-trip hygiene for a section body: empty, or CR-free with no
trailing whitespace, a first line holding a non-whitespace character, and
no line beginning with `##`. -/
def bodyOk (b : Str) : Bool :=
  b.isEmpty ||
    (b.all (· != '\r') && (pyRstrip b == b) &&
     (b.takeWhile (· != '\n')).any (fun c => !isPySpace c) && noH2Lines b)

/-- All three canonical headings occur in the list. -/
def allPresentB (e : List Str) : Bool :=
  e.contains canonName1 && e.contains canonName2 && e.contains canonName3

/-- The first occurrence of the second canonical heading precedes the
first occurrence of the third. -/
def pairInOrder (hs : List Str) : Bool :=
  match idxFrom hs canonName2 0, idxFrom hs canonName3 0 with
  | some j, some k => decide (j < k)
  | _, _ => false

/-- The duplicate-free canonical heading lists that are not prefixes of
the canonical order: accumulator states of the heading loop from which
the ordered check can no longer succeed. -/
def badAccs : List (List Str) :=
  [[canonName2], [canonName3],
   [canonName1, canonName3], [canonName2, canonName1], [canonName2, canonName3],
   [canonName3, canonName1], [canonName3, canonName2],
   [canonName1, canonName3, canonName2], [canonName2, canonName1, canonName3],
   [canonName2, canonName3, canonName1], [canonName3, canonName1, canonName2],
   [canonName3, canonName2, canonName1]]

/-- Invariant of the heading loop: a canonical key is present in
`sections` exactly when its heading has been encountered. -/
def secInv (sections : List (Nat × Str)) (enc : List Str) : Prop :=
  (List.lookup 1 sections).isSome = enc.contains canonName1 ∧
  (List.lookup 2 sections).isSome = enc.contains canonName2 ∧
  (List.lookup 3 sections).isSome = enc.contains canonName3

/-- Tail of a non-final serialized section after the heading line's LF. -/
def midTail (b : Str) : Str := if b = [] then ['\n'] else b ++ ['\n', '\n']

/-- Tail of the final serialized section after the heading line's LF. -/
def lastTail (b : Str) : Str := if b = [] then [] else b ++ ['\n']

/-- Serialized document suffix from the third canonical heading. -/
def sfx3 (b3 : Str) : Str := pyS "## " ++ heading3txt ++ '\n' :: lastTail b3

/-- Serialized document suffix from the second canonical heading. -/
def sfx2 (b2 b3 : Str) : Str := pyS "## " ++ heading2txt ++ '\n' :: (midTail b2 ++ sfx3 b3)

/-- Serialized document suffix from the first canonical heading. -/
def sfx1 (b1 b2 b3 : Str) : Str :=
  pyS "## " ++ heading1txt ++ '\n' :: (midTail b1 ++ sfx2 b2 b3)

/-- The normal form of `to_markdown` for a hygienic plan. -/
def docOf (t b1 b2 b3 : Str) : Str := pyS "# " ++ t ++ '\n' :: '\n' :: sfx1 b1 b2 b3

/-- The `(?m)^` candidate positions of a suffix beginning at `q`,
including `q` itself. -/
def lineCands (s : Str) (q : Nat) : List (Nat × Str) :=
  (q, s) :: lineStartSuffixesAux s q

/-! ## Lemma toolkit -/

theorem ne_nil_left {a b : Str} (h : a ≠ []) : a ++ b ≠ [] := by
  cases a
  · exact absurd rfl h
  · simp

theorem err_ne_element {tokens : List Str} {start : Nat} {e : Str}
    (h : (tr_parse_element tokens start).2.2 = some e) : e ≠ [] := by
  revert h
  unfold tr_parse_element
  repeat' (first | split | dsimp only)
  all_goals intro h
  all_goals first
    | (obtain rfl := Option.some.inj h
       decide)
    | cases h

theorem err_ne_range {tokens : List Str} {start : Nat} {e : Str}
    (h : (tr_parse_range tokens start).2.2 = some e) : e ≠ [] := by
  revert h
  unfold tr_parse_range
  repeat' (first | split | dsimp only)
  all_goals intro h
  all_goals first
    | (obtain rfl := Option.some.inj h
       decide)
    | cases h

theorem wf_trFinish (action : Str) (tokens : List Str) (idx : Nat)
    (primary : Str × Str × Str) (pr : Option (Str × Str × Str × Str))
    (we : Option (Str × Str × Str)) (wr : Option (Str × Str × Str × Str))
    (wm : Option Str) : wellFormedResult (trFinish action tokens idx primary pr we wr wm) := by
  unfold trFinish wellFormedResult
  split
  · exact Or.inr ⟨_, rfl, rfl, by decide⟩
  · dsimp only
    split
    · refine Or.inl ⟨_, rfl, rfl, ?_⟩
      repeat apply ne_nil_left
      decide
    · refine Or.inl ⟨_, rfl, rfl, ?_⟩
      repeat apply ne_nil_left
      decide

theorem wf_trWithStep (action : Str) (tokens : List Str) (idx : Nat)
    (primary : Str × Str × Str) (pr : Option (Str × Str × Str × Str)) :
    wellFormedResult (trWithStep action tokens idx primary pr) := by
  unfold trWithStep wellFormedResult
  repeat' (first | split | dsimp only)
  all_goals
    first
      | apply wf_trFinish
      | exact Or.inr ⟨_, rfl, rfl, by decide⟩
      | (rename_i heq
         exact Or.inr ⟨_, rfl, rfl, err_ne_element (by rw [heq])⟩)
      | (rename_i heq
         exact Or.inr ⟨_, rfl, rfl, err_ne_range (by rw [heq])⟩)

theorem wf_trCreateFlow (action : Str) (tokens : List Str) (idx : Nat)
    (primary : Str × Str × Str) :
    wellFormedResult (trCreateFlow action tokens idx primary) := by
  unfold trCreateFlow wellFormedResult
  repeat' (first | split | dsimp only)
  all_goals
    first
      | apply wf_trWithStep
      | exact Or.inr ⟨_, rfl, rfl, by decide⟩
      | (rename_i heq
         exact Or.inr ⟨_, rfl, rfl, err_ne_range (by rw [heq])⟩)

theorem wf_trAfterAction (action : Str) (idx0 : Nat) (tokens : List Str) :
    wellFormedResult (trAfterAction action idx0 tokens) := by
  unfold trAfterAction wellFormedResult
  repeat' (first | split | dsimp only)
  all_goals
    first
      | apply wf_trCreateFlow
      | exact Or.inr ⟨_, rfl, rfl, by decide⟩
      | (rename_i heq
         exact Or.inr ⟨_, rfl, rfl, err_ne_element (by rw [heq])⟩)
      | (rename_i heq
         exact Or.inr ⟨_, rfl, rfl, err_ne_range (by rw [heq])⟩)
      | (refine Or.inl ⟨_, rfl, rfl, ?_⟩
         repeat apply ne_nil_left
         decide)

theorem wf_transitionTokens (tokens : List Str) :
    wellFormedResult (transitionTokens tokens) := by
  unfold transitionTokens wellFormedResult
  repeat' (first | split | dsimp only)
  all_goals
    first
      | apply wf_trAfterAction
      | exact Or.inr ⟨_, rfl, rfl, by decide⟩

theorem wf_transition (s : Str) : wellFormedResult (transition_notation_to_text s) := by
  unfold transition_notation_to_text
  split
  · apply wf_transitionTokens
  · exact Or.inr ⟨_, rfl, rfl, by decide⟩

theorem wf_meaning (s : Str) : wellFormedResult (transition_meaning_notation_to_text s) := by
  unfold transition_meaning_notation_to_text wellFormedResult
  repeat' (first | split | dsimp only)
  all_goals
    first
      | exact Or.inr ⟨_, rfl, rfl, by decide⟩
      | (refine Or.inl ⟨_, rfl, rfl, ?_⟩
         repeat apply ne_nil_left
         decide)

theorem wf_notation_to_text (s : Str) : wellFormedResult (notation_to_text s) := by
  unfold notation_to_text wellFormedResult
  repeat' (first | split | dsimp only)
  all_goals
    first
      | exact Or.inr ⟨_, rfl, rfl, by decide⟩
      | (refine Or.inl ⟨_, rfl, rfl, ?_⟩
         repeat apply ne_nil_left
         decide)

theorem length_filterMap_eq_countP {α β : Type} (f : α → Option β) (l : List α) :
    (l.filterMap f).length = l.countP (fun a => (f a).isSome) := by
  induction l with
  | nil => rfl
  | cons a l ih => cases hfa : f a <;> simp [List.filterMap_cons, hfa, List.countP_cons, ih]

theorem parseChunk_isSome (c : Str) : (transitionParseChunk c).isSome = hasImage c := by
  unfold transitionParseChunk hasImage
  cases himg : imageFind c <;> simp


theorem break_subset_space {c : Char} (h : isLineBreakChar c = true) : isPySpace c = true := by
  simp only [isLineBreakChar, Bool.or_eq_true, decide_eq_true_eq] at h
  rcases h with (((((((((h | h) | h) | h) | h) | h) | h) | h) | h) | h) <;> subst h <;> rfl

theorem tokenOk_ne_nil {t : Str} (h : tokenOk t = true) : t ≠ [] := by
  intro hcon
  subst hcon
  simp [tokenOk] at h

theorem tokenOk_no_ws {t : Str} (h : tokenOk t = true) : ∀ c ∈ t, isPySpace c = false := by
  simp only [tokenOk, Bool.and_eq_true, List.all_eq_true, Bool.not_eq_true'] at h
  exact fun c hc => h.2 c hc

theorem splitlinesAux_no_break {s : Str} (hs : ∀ c ∈ s, isLineBreakChar c = false) :
    ∀ acc : Str, pySplitlinesAux s false acc =
      if acc = [] ∧ s = [] then [] else [acc.reverse ++ s] := by
  induction s with
  | nil =>
      intro acc
      simp [pySplitlinesAux, List.isEmpty_iff]
  | cons c rest ih =>
      intro acc
      have hc : isLineBreakChar c = false := hs c (by simp)
      have hcr : ¬ c = '\r' := by
        intro h
        subst h
        exact absurd hc (by decide)
      have hcn : ¬ (c = '\n' ∧ false = true) := by
        rintro ⟨_, h⟩
        cases h
      rw [pySplitlinesAux, if_neg hcn, if_neg hcr, hc]
      simp only [Bool.false_eq_true, if_false]
      rw [ih (fun d hd => hs d (by simp [hd])) (c :: acc)]
      simp

theorem splitlines_no_break {s : Str} (hne : s ≠ [])
    (hs : ∀ c ∈ s, isLineBreakChar c = false) : pySplitlines s = [s] := by
  unfold pySplitlines
  rw [splitlinesAux_no_break hs []]
  simp [hne]

theorem wsTokensAux_token_prefix {t : Str} (ht : ∀ c ∈ t, isPySpace c = false) :
    ∀ (s : Str) (acc : Str), wsTokensAux (t ++ s) acc = wsTokensAux s (t.reverse ++ acc) := by
  induction t with
  | nil => intro s acc; simp
  | cons c rest ih =>
      intro s acc
      have hc : isPySpace c = false := ht c (by simp)
      rw [List.cons_append, wsTokensAux, hc]
      simp only [Bool.false_eq_true, if_false]
      rw [ih (fun d hd => ht d (by simp [hd])) s (c :: acc)]
      simp

theorem joinTokens_cons2 (t u : Str) (rest : List Str) :
    joinTokens (t :: u :: rest) = t ++ ' ' :: joinTokens (u :: rest) := rfl

theorem joinTokens_ne_nil {ts : List Str} (h : ∀ t ∈ ts, tokenOk t = true) (hne : ts ≠ []) :
    joinTokens ts ≠ [] := by
  cases ts with
  | nil => exact absurd rfl hne
  | cons t rest =>
      have hthead := tokenOk_ne_nil (h t (by simp))
      cases rest with
      | nil => exact hthead
      | cons u r2 =>
          rw [joinTokens_cons2]
          intro hcon
          exact hthead (List.append_eq_nil.1 hcon).1

theorem joinTokens_tokens {ts : List Str} (h : ∀ t ∈ ts, tokenOk t = true) :
    ts ≠ [] → wsTokens (joinTokens ts) = ts := by
  induction ts with
  | nil => intro hne; exact absurd rfl hne
  | cons t rest ih =>
      intro _
      have htok := h t (by simp)
      cases rest with
      | nil =>
          show wsTokensAux (joinTokens [t]) [] = [t]
          have hj : joinTokens [t] = t ++ [] := by simp [joinTokens]
          rw [hj, wsTokensAux_token_prefix (tokenOk_no_ws htok)]
          simp [wsTokensAux, List.isEmpty_iff, tokenOk_ne_nil htok]
      | cons u rest2 =>
          show wsTokensAux (joinTokens (t :: u :: rest2)) [] = t :: u :: rest2
          rw [joinTokens_cons2, wsTokensAux_token_prefix (tokenOk_no_ws htok)]
          rw [wsTokensAux]
          have hne2 : ¬ (t.reverse ++ ([] : Str)).isEmpty = true := by
            simp [List.isEmpty_iff, tokenOk_ne_nil htok]
          rw [if_pos (show isPySpace ' ' = true from rfl), if_neg hne2]
          have hrec := ih (fun d hd => h d (by simp [hd])) (by simp)
          simp only [wsTokens] at hrec
          rw [hrec]
          simp

theorem joinTokens_chars {ts : List Str} (h : ∀ t ∈ ts, tokenOk t = true) :
    ∀ c ∈ joinTokens ts, isPySpace c = false ∨ c = ' ' := by
  induction ts with
  | nil => intro c hc; cases hc
  | cons t rest ih =>
      intro c hc
      cases rest with
      | nil =>
          exact Or.inl (tokenOk_no_ws (h t (by simp)) c hc)
      | cons u rest2 =>
          rw [joinTokens_cons2] at hc
          rcases List.mem_append.1 hc with hc | hc
          · exact Or.inl (tokenOk_no_ws (h t (by simp)) c hc)
          · rcases List.mem_cons.1 hc with rfl | hc
            · exact Or.inr rfl
            · exact ih (fun d hd => h d (by simp [hd])) c hc

theorem joinTokens_no_break {ts : List Str} (h : ∀ t ∈ ts, tokenOk t = true) :
    ∀ c ∈ joinTokens ts, isLineBreakChar c = false := by
  intro c hc
  rcases joinTokens_chars h c hc with hws | rfl
  · cases hbr : isLineBreakChar c
    · rfl
    · exact absurd (break_subset_space hbr) (by simp [hws])
  · rfl

theorem joinTokens_head {t : Str} (ts : List Str) (h : t ≠ []) :
    (joinTokens (t :: ts)).headD ' ' = t.headD ' ' := by
  cases ts with
  | nil => rfl
  | cons u rest =>
      rw [joinTokens_cons2]
      cases t with
      | nil => exact absurd rfl h
      | cons a t2 => rfl

theorem pyRstrip_append {a b : Str} (hb : pyRstrip b ≠ []) :
    pyRstrip (a ++ b) = a ++ pyRstrip b := by
  have hne : ¬ (b.reverse.dropWhile isPySpace).isEmpty = true := by
    intro hcon
    rw [List.isEmpty_iff] at hcon
    apply hb
    unfold pyRstrip
    rw [hcon]
    rfl
  unfold pyRstrip
  rw [List.reverse_append, List.dropWhile_append, if_neg hne, List.reverse_append,
    List.reverse_reverse]

theorem pyRstrip_token {t : Str} (ht : ∀ c ∈ t, isPySpace c = false) : pyRstrip t = t := by
  unfold pyRstrip
  cases hrev : t.reverse with
  | nil => simp [List.reverse_eq_nil_iff.1 hrev]
  | cons c r =>
      have hc : c ∈ t := by
        have hmem : c ∈ t.reverse := by
          rw [hrev]
          simp
        exact List.mem_reverse.1 hmem
      rw [List.dropWhile_cons, ht c hc]
      simp only [Bool.false_eq_true, if_false]
      rw [← hrev, List.reverse_reverse]

theorem pyRstrip_joinTokens {ts : List Str} (h : ∀ t ∈ ts, tokenOk t = true) :
    pyRstrip (joinTokens ts) = joinTokens ts := by
  induction ts with
  | nil => rfl
  | cons t rest ih =>
      cases rest with
      | nil => exact pyRstrip_token (tokenOk_no_ws (h t (by simp)))
      | cons u rest2 =>
          have hj : joinTokens (t :: u :: rest2) = (t ++ [' ']) ++ joinTokens (u :: rest2) := by
            rw [joinTokens_cons2]
            simp
          rw [hj]
          have hrest := ih (fun d hd => h d (by simp [hd]))
          have hne : pyRstrip (joinTokens (u :: rest2)) ≠ [] := by
            rw [hrest]
            exact joinTokens_ne_nil (fun d hd => h d (by simp [hd])) (by simp)
          rw [pyRstrip_append hne, hrest]

theorem pyLstrip_head {s : Str} (hh : isPySpace (s.headD ' ') = false) (hne : s ≠ []) :
    pyLstrip s = s := by
  cases s with
  | nil => exact absurd rfl hne
  | cons c rest =>
      unfold pyLstrip
      rw [List.dropWhile_cons]
      simp only [List.headD_cons] at hh
      simp [hh]

theorem pyStrip_joinTokens {ts : List Str} (h : ∀ t ∈ ts, tokenOk t = true) (hne : ts ≠ []) :
    pyStrip (joinTokens ts) = joinTokens ts := by
  unfold pyStrip
  cases ts with
  | nil => exact absurd rfl hne
  | cons t rest =>
      have hthead := tokenOk_ne_nil (h t (by simp))
      have hjne : joinTokens (t :: rest) ≠ [] := joinTokens_ne_nil h (by simp)
      rw [pyLstrip_head ?_ hjne]
      · exact pyRstrip_joinTokens h
      · rw [joinTokens_head rest hthead]
        cases t with
        | nil => exact absurd rfl hthead
        | cons a t2 =>
            simp only [List.headD_cons]
            exact tokenOk_no_ws (h (a :: t2) (by simp)) a (by simp)

theorem nonEmptyLines_joinTokens {ts : List Str} (h : ∀ t ∈ ts, tokenOk t = true)
    (hne : ts ≠ []) : nonEmptyLines (joinTokens ts) = [joinTokens ts] := by
  have hjne : joinTokens ts ≠ [] := joinTokens_ne_nil h hne
  unfold nonEmptyLines
  rw [splitlines_no_break hjne (joinTokens_no_break h)]
  simp only [List.map_cons, List.map_nil, pyStrip_joinTokens h hne]
  simp [hjne]


theorem trAfterAction_get_shape (a : Str) (ha : a = pyS "GET" ∨ a = pyS "NOT GET")
    (i0 : Nat) (ts : List Str) :
    (trAfterAction a i0 ts).2 = none ↔ getShapeSpec ts i0 := by
  have e1 : i0 + 3 + 1 = i0 + 4 := by omega
  have e2 : i0 + 3 + 2 = i0 + 5 := by omega
  have e3 : i0 + 3 + 3 = i0 + 6 := by omega
  have e4 : i0 + 3 + 4 = i0 + 7 := by omega
  have e5 : i0 + 3 + 5 = i0 + 8 := by omega
  unfold trAfterAction
  by_cases h1 : ts.length < i0 + 3
  · have hpe : tr_parse_element ts i0 =
        (none, i0, some (pyS "Ожидается элемент в формате +/- TF Element.")) := by
      unfold tr_parse_element
      rw [if_pos h1]
    rw [hpe]
    constructor
    · intro hcon
      exact absurd hcon (by simp)
    · intro hcon
      exact absurd hcon.1 (by omega)
  by_cases h2 : isSignToken (ts.getD i0 []) = true
  case neg =>
    have hpe : tr_parse_element ts i0 =
        (none, i0, some (pyS "Ожидается знак +/- для элемента.")) := by
      unfold tr_parse_element
      rw [if_neg h1]
      have h2' := h2
      simp only [Bool.not_eq_true, List.getD_eq_getElem?_getD] at h2'
      simp [h2']
    rw [hpe]
    constructor
    · intro hcon
      exact absurd hcon (by simp)
    · intro hcon
      exact absurd hcon.2.1 h2
  by_cases h3 : isTfToken (ts.getD (i0 + 1) []) = true
  case neg =>
    have hpe : tr_parse_element ts i0 =
        (none, i0, some (pyS "Ожидается корректный TF для элемента.")) := by
      unfold tr_parse_element
      rw [if_neg h1]
      have h2' := h2
      have h3' := h3
      simp only [Bool.not_eq_true, List.getD_eq_getElem?_getD] at h2' h3'
      simp [h2', h3']
    rw [hpe]
    constructor
    · intro hcon
      exact absurd hcon (by simp)
    · intro hcon
      exact absurd hcon.2.2.1 h3
  have hpe : tr_parse_element ts i0 =
      (some ((ts[i0]?).getD [], pyUpper ((ts[i0 + 1]?).getD []), (ts[i0 + 2]?).getD []),
       i0 + 3, none) := by
    unfold tr_parse_element
    rw [if_neg h1]
    have h2' := h2
    have h3' := h3
    simp only [List.getD_eq_getElem?_getD] at h2' h3'
    simp [h2', h3']
  rw [hpe]
  dsimp only
  rw [if_pos ha]
  by_cases h4 : ts.length < i0 + 3 + 5
  · have hpr : tr_parse_range ts (i0 + 3) =
        (none, i0 + 3,
         some (pyS "Ожидается диапазон в формате ACTUAL/PREV +/- TF DR Premium/Discount/Equilibrium.")) := by
      unfold tr_parse_range
      rw [if_pos h4]
    rw [hpr]
    constructor
    · intro hcon
      exact absurd hcon (by simp)
    · intro hcon
      exact absurd hcon.1 (by omega)
  by_cases h5 : isApToken (ts.getD (i0 + 3) []) = true
  case neg =>
    have hpr : tr_parse_range ts (i0 + 3) =
        (none, i0 + 3, some (pyS "Ожидается ACTUAL/PREV для диапазона.")) := by
      unfold tr_parse_range
      rw [if_neg h4]
      have h5' := h5
      simp only [isApToken, Bool.or_eq_true, not_or, Bool.not_eq_true,
        decide_eq_false_iff_not, List.getD_eq_getElem?_getD] at h5'
      simp [h5'.1, h5'.2]
    rw [hpr]
    constructor
    · intro hcon
      exact absurd hcon (by simp)
    · intro hcon
      exact absurd hcon.2.2.2.1 h5
  by_cases h6 : isSignToken (ts.getD (i0 + 4) []) = true
  case neg =>
    have hpr : tr_parse_range ts (i0 + 3) =
        (none, i0 + 3, some (pyS "Ожидается знак +/- для диапазона.")) := by
      unfold tr_parse_range
      rw [if_neg h4]
      have h5' := h5
      simp only [isApToken, Bool.or_eq_true, decide_eq_true_eq,
        List.getD_eq_getElem?_getD] at h5'
      have h6' := h6
      simp only [Bool.not_eq_true, List.getD_eq_getElem?_getD] at h6'
      simp [h5', e1, h6']
    rw [hpr]
    constructor
    · intro hcon
      exact absurd hcon (by simp)
    · intro hcon
      exact absurd hcon.2.2.2.2.1 h6
  by_cases h7 : isTfToken (ts.getD (i0 + 5) []) = true
  case neg =>
    have hpr : tr_parse_range ts (i0 + 3) =
        (none, i0 + 3, some (pyS "Ожидается корректный TF для диапазона.")) := by
      unfold tr_parse_range
      rw [if_neg h4]
      have h5' := h5
      simp only [isApToken, Bool.or_eq_true, decide_eq_true_eq,
        List.getD_eq_getElem?_getD] at h5'
      have h6' := h6
      have h7' := h7
      simp only [Bool.not_eq_true, List.getD_eq_getElem?_getD] at h6' h7'
      simp [h5', e1, e2, h6', h7']
    rw [hpr]
    constructor
    · intro hcon
      exact absurd hcon (by simp)
    · intro hcon
      exact absurd hcon.2.2.2.2.2.1 h7
  by_cases h8 : pyUpper (ts.getD (i0 + 6) []) = pyS "DR"
  case neg =>
    have hpr : tr_parse_range ts (i0 + 3) =
        (none, i0 + 3, some (pyS "После TF диапазона должно быть DR.")) := by
      unfold tr_parse_range
      rw [if_neg h4]
      have h5' := h5
      simp only [isApToken, Bool.or_eq_true, decide_eq_true_eq,
        List.getD_eq_getElem?_getD] at h5'
      have h6' := h6
      have h7' := h7
      simp only [List.getD_eq_getElem?_getD] at h6' h7'
      have h8' := h8
      simp only [List.getD_eq_getElem?_getD] at h8'
      simp [h5', e1, e2, e3, h6', h7', h8']
    rw [hpr]
    constructor
    · intro hcon
      exact absurd hcon (by simp)
    · intro hcon
      exact absurd hcon.2.2.2.2.2.2.1 h8
  by_cases h9 : isZoneToken (ts.getD (i0 + 7) []) = true
  case neg =>
    have hpr : tr_parse_range ts (i0 + 3) =
        (none, i0 + 3, some (pyS "Ожидается Premium/Discount/Equilibrium.")) := by
      unfold tr_parse_range
      rw [if_neg h4]
      have h5' := h5
      simp only [isApToken, Bool.or_eq_true, decide_eq_true_eq,
        List.getD_eq_getElem?_getD] at h5'
      have h6' := h6
      have h7' := h7
      have h8' := h8
      simp only [List.getD_eq_getElem?_getD] at h6' h7' h8'
      have h9' := h9
      simp only [isZoneToken, Bool.or_eq_true, not_or, Bool.not_eq_true,
        decide_eq_false_iff_not, List.getD_eq_getElem?_getD] at h9'
      simp [h5', e1, e2, e3, e4, h6', h7', h8', h9'.1.1, h9'.1.2, h9'.2]
    rw [hpr]
    constructor
    · intro hcon
      exact absurd hcon (by simp)
    · intro hcon
      exact absurd hcon.2.2.2.2.2.2.2 h9
  have hpr : tr_parse_range ts (i0 + 3) =
      (some (pyUpper ((ts[i0 + 3]?).getD []), (ts[i0 + 4]?).getD [],
             pyUpper ((ts[i0 + 5]?).getD []), normalizeZoneTr ((ts[i0 + 7]?).getD [])),
       i0 + 3 + 5, none) := by
    unfold tr_parse_range
    rw [if_neg h4]
    have h5' := h5
    simp only [isApToken, Bool.or_eq_true, decide_eq_true_eq,
      List.getD_eq_getElem?_getD] at h5'
    have h6' := h6
    have h7' := h7
    have h8' := h8
    simp only [List.getD_eq_getElem?_getD] at h6' h7' h8'
    have h9' := h9
    simp only [isZoneToken, Bool.or_eq_true, decide_eq_true_eq,
      List.getD_eq_getElem?_getD] at h9'
    rcases h9' with (h9' | h9') | h9' <;>
      simp [h5', e1, e2, e3, e4, h6', h7', h8', h9']
  rw [hpr]
  dsimp only
  by_cases h10 : ts.length = i0 + 8
  · rw [if_neg (by omega : ¬ i0 + 3 + 5 ≠ ts.length)]
    constructor
    · intro _
      exact ⟨h10, h2, h3, h5, h6, h7, h8, h9⟩
    · intro _
      rfl
  · rw [if_pos (by omega : i0 + 3 + 5 ≠ ts.length)]
    constructor
    · intro hcon
      exact absurd hcon (by simp [actionHelpErr])
    · intro hcon
      exact absurd hcon.1 h10

theorem joinTokens_take {t : Str} (ts : List Str) (n : Nat) (h : n ≤ t.length) :
    (joinTokens (t :: ts)).take n = t.take n := by
  cases ts with
  | nil => rfl
  | cons u rest =>
      rw [joinTokens_cons2, List.take_append_eq_append_take]
      simp [Nat.sub_eq_zero_of_le h]

theorem rewriteNotPrefix_id {line : Str} (h : ¬ pyUpper (line.take 4) = pyS "NOT_") :
    rewriteNotPrefix line = line := by
  unfold rewriteNotPrefix
  rw [if_neg h]

theorem lookup_append_self (l : List (Nat × Str)) (k : Nat) (b : Str) :
    (List.lookup k (l ++ [(k, b)])).isSome = true := by
  induction l with
  | nil => simp [List.lookup]
  | cons a rest ih =>
      rw [List.cons_append, List.lookup]
      split
      · rfl
      · exact ih

theorem lookup_append_other (l : List (Nat × Str)) {k k' : Nat} (h : k' ≠ k) (b : Str) :
    List.lookup k' (l ++ [(k, b)]) = List.lookup k' l := by
  induction l with
  | nil => simp [List.lookup, beq_eq_false_iff_ne.mpr h]
  | cons a rest ih =>
      rw [List.cons_append, List.lookup, List.lookup]
      split
      · rfl
      · exact ih

theorem canonKey_cases {n : Str} {k : Nat} (h : canonicalKey? n = some k) :
    (k = 1 ∧ n = canonName1) ∨ (k = 2 ∧ n = canonName2) ∨ (k = 3 ∧ n = canonName3) := by
  revert h
  unfold canonicalKey?
  split_ifs with h1 h2 h3
  · intro h
    exact Or.inl ⟨(Option.some.inj h).symm, h1⟩
  · intro h
    exact Or.inr (Or.inl ⟨(Option.some.inj h).symm, h2⟩)
  · intro h
    exact Or.inr (Or.inr ⟨(Option.some.inj h).symm, h3⟩)
  · intro h
    cases h

theorem canonKey_none {n : Str} (h : canonicalKey? n = none) :
    n ≠ canonName1 ∧ n ≠ canonName2 ∧ n ≠ canonName3 := by
  revert h
  unfold canonicalKey?
  split_ifs with h1 h2 h3
  · intro h
    cases h
  · intro h
    cases h
  · intro h
    cases h
  · intro _
    exact ⟨h1, h2, h3⟩

theorem idxFrom_cons (n : Str) (l : List Str) (x : Str) :
    idxFrom (n :: l) x 0 = if n == x then some 0 else (idxFrom l x 0).map (· + 1) := by
  unfold idxFrom
  rw [List.drop_zero, List.drop_zero, List.findIdx?_cons]
  split
  · simp
  · simp [Option.map_map]
    rfl

theorem scan3_three (ns : List Str) : scan3 ns 3 = true := by
  cases ns with
  | nil => rfl
  | cons n rest =>
      rw [scan3]
      rfl

theorem final_bad (ns : List Str) : ∀ acc ∈ badAccs,
    (allPresentB (encOf ns acc) && orderedCheck (encOf ns acc)) = false := by
  induction ns with
  | nil =>
      intro acc h
      simp only [badAccs, List.mem_cons, List.not_mem_nil, or_false] at h
      rcases h with rfl | rfl | rfl | rfl | rfl | rfl | rfl | rfl | rfl | rfl | rfl | rfl <;>
        decide
  | cons n rest ih =>
      intro acc h
      rw [encOf]
      split_ifs with hc
      · apply ih
        cases hk : canonicalKey? n with
        | none => rw [hk] at hc; simp at hc
        | some k =>
            rcases canonKey_cases hk with ⟨-, rfl⟩ | ⟨-, rfl⟩ | ⟨-, rfl⟩ <;>
              · simp only [badAccs, List.mem_cons, List.not_mem_nil, or_false] at h
                rcases h with rfl | rfl | rfl | rfl | rfl | rfl | rfl | rfl | rfl | rfl |
                  rfl | rfl <;> revert hc <;> decide
      · exact ih acc h

theorem final_good (ns : List Str) :
    ((allPresentB (encOf ns []) && orderedCheck (encOf ns [])) = scan3 ns 0) ∧
    ((allPresentB (encOf ns [canonName1]) && orderedCheck (encOf ns [canonName1])) =
      scan3 ns 1) ∧
    ((allPresentB (encOf ns [canonName1, canonName2]) &&
      orderedCheck (encOf ns [canonName1, canonName2])) = scan3 ns 2) ∧
    ((allPresentB (encOf ns [canonName1, canonName2, canonName3]) &&
      orderedCheck (encOf ns [canonName1, canonName2, canonName3])) = scan3 ns 3) := by
  induction ns with
  | nil => decide
  | cons n rest ih =>
      by_cases e1 : n = canonName1
      · subst e1
        refine ⟨?_, ?_, ?_, ?_⟩
        · rw [show encOf (canonName1 :: rest) ([] : List Str) = encOf rest [canonName1]
              from rfl,
            show scan3 (canonName1 :: rest) 0 = scan3 rest 1 from rfl]
          exact ih.2.1
        · rw [show encOf (canonName1 :: rest) [canonName1] = encOf rest [canonName1]
              from rfl,
            show scan3 (canonName1 :: rest) 1 = scan3 rest 1 from rfl]
          exact ih.2.1
        · rw [show encOf (canonName1 :: rest) [canonName1, canonName2] =
                encOf rest [canonName1, canonName2] from rfl,
            show scan3 (canonName1 :: rest) 2 = scan3 rest 2 from rfl]
          exact ih.2.2.1
        · rw [show encOf (canonName1 :: rest) [canonName1, canonName2, canonName3] =
                encOf rest [canonName1, canonName2, canonName3] from rfl,
            show scan3 (canonName1 :: rest) 3 = true from rfl]
          exact (ih.2.2.2).trans (scan3_three rest)
      by_cases e2 : n = canonName2
      · subst e2
        refine ⟨?_, ?_, ?_, ?_⟩
        · rw [show encOf (canonName2 :: rest) ([] : List Str) = encOf rest [canonName2]
              from rfl,
            show scan3 (canonName2 :: rest) 0 = false from rfl]
          exact final_bad rest [canonName2] (by decide)
        · rw [show encOf (canonName2 :: rest) [canonName1] =
                encOf rest [canonName1, canonName2] from rfl,
            show scan3 (canonName2 :: rest) 1 = scan3 rest 2 from rfl]
          exact ih.2.2.1
        · rw [show encOf (canonName2 :: rest) [canonName1, canonName2] =
                encOf rest [canonName1, canonName2] from rfl,
            show scan3 (canonName2 :: rest) 2 = scan3 rest 2 from rfl]
          exact ih.2.2.1
        · rw [show encOf (canonName2 :: rest) [canonName1, canonName2, canonName3] =
                encOf rest [canonName1, canonName2, canonName3] from rfl,
            show scan3 (canonName2 :: rest) 3 = true from rfl]
          exact (ih.2.2.2).trans (scan3_three rest)
      by_cases e3 : n = canonName3
      · subst e3
        refine ⟨?_, ?_, ?_, ?_⟩
        · rw [show encOf (canonName3 :: rest) ([] : List Str) = encOf rest [canonName3]
              from rfl,
            show scan3 (canonName3 :: rest) 0 = false from rfl]
          exact final_bad rest [canonName3] (by decide)
        · rw [show encOf (canonName3 :: rest) [canonName1] =
                encOf rest [canonName1, canonName3] from rfl,
            show scan3 (canonName3 :: rest) 1 = false from rfl]
          exact final_bad rest [canonName1, canonName3] (by decide)
        · rw [show encOf (canonName3 :: rest) [canonName1, canonName2] =
                encOf rest [canonName1, canonName2, canonName3] from rfl,
            show scan3 (canonName3 :: rest) 2 = scan3 rest 3 from rfl]
          exact ih.2.2.2
        · rw [show encOf (canonName3 :: rest) [canonName1, canonName2, canonName3] =
                encOf rest [canonName1, canonName2, canonName3] from rfl,
            show scan3 (canonName3 :: rest) 3 = true from rfl]
          exact (ih.2.2.2).trans (scan3_three rest)
      · have hk : canonicalKey? n = none := by
          have e1' : ¬ n = normalizeHeading heading1txt := e1
          have e2' : ¬ n = normalizeHeading heading2txt := e2
          have e3' : ¬ n = normalizeHeading heading3txt := e3
          unfold canonicalKey?
          rw [if_neg e1', if_neg e2', if_neg e3']
        have he : ∀ acc : List Str, encOf (n :: rest) acc = encOf rest acc := by
          intro acc
          rw [encOf, hk]
          simp
        have hb1 : (n == canonName1) = false := beq_eq_false_iff_ne.mpr e1
        have hb2 : (n == canonName2) = false := beq_eq_false_iff_ne.mpr e2
        have hb3 : (n == canonName3) = false := beq_eq_false_iff_ne.mpr e3
        refine ⟨?_, ?_, ?_, ?_⟩
        · rw [he, scan3]
          simp only [show ((0 : Nat) == 3) = false from rfl,
            show ((0 : Nat) == 0) = true from rfl, hb1, hb2, hb3, Bool.or_self,
            Bool.false_eq_true, if_false, if_true]
          exact ih.1
        · rw [he, scan3]
          simp only [show ((1 : Nat) == 3) = false from rfl,
            show ((1 : Nat) == 0) = false from rfl, show ((1 : Nat) == 1) = true from rfl,
            hb2, hb3, Bool.false_eq_true, if_false, if_true]
          exact ih.2.1
        · rw [he, scan3]
          simp only [show ((2 : Nat) == 3) = false from rfl,
            show ((2 : Nat) == 0) = false from rfl, show ((2 : Nat) == 1) = false from rfl,
            hb3, Bool.false_eq_true, if_false]
          exact ih.2.2.1
        · rw [he, show scan3 (n :: rest) 3 = true from rfl]
          exact (ih.2.2.2).trans (scan3_three rest)

theorem scan3_ord (ns : List Str) :
    canonicalInOrder ns = scan3 ns 0 ∧
    pairInOrder ns = scan3 ns 1 ∧
    (idxFrom ns canonName3 0).isSome = scan3 ns 2 := by
  induction ns with
  | nil => decide
  | cons n rest ih =>
      by_cases e1 : n = canonName1
      · subst e1
        refine ⟨?_, ?_, ?_⟩
        · rw [show scan3 (canonName1 :: rest) 0 = scan3 rest 1 from rfl, ← ih.2.1]
          unfold canonicalInOrder pairInOrder
          rw [idxFrom_cons, idxFrom_cons, idxFrom_cons]
          simp only [show (canonName1 == canonName1) = true from rfl,
            show (canonName1 == canonName2) = false from by decide,
            show (canonName1 == canonName3) = false from by decide, if_true, if_false]
          cases idxFrom rest canonName2 0 <;> cases idxFrom rest canonName3 0 <;>
            simp [Nat.add_lt_add_iff_right]
        · rw [show scan3 (canonName1 :: rest) 1 = scan3 rest 1 from rfl, ← ih.2.1]
          unfold pairInOrder
          rw [idxFrom_cons, idxFrom_cons]
          simp only [show (canonName1 == canonName2) = false from by decide,
            show (canonName1 == canonName3) = false from by decide, if_false]
          cases idxFrom rest canonName2 0 <;> cases idxFrom rest canonName3 0 <;>
            simp [Nat.add_lt_add_iff_right]
        · rw [show scan3 (canonName1 :: rest) 2 = scan3 rest 2 from rfl, ← ih.2.2]
          rw [idxFrom_cons]
          simp only [show (canonName1 == canonName3) = false from by decide, if_false]
          cases idxFrom rest canonName3 0 <;> simp
      by_cases e2 : n = canonName2
      · subst e2
        refine ⟨?_, ?_, ?_⟩
        · rw [show scan3 (canonName2 :: rest) 0 = false from rfl]
          unfold canonicalInOrder
          rw [idxFrom_cons, idxFrom_cons, idxFrom_cons]
          simp only [show (canonName2 == canonName1) = false from by decide,
            show (canonName2 == canonName2) = true from rfl,
            show (canonName2 == canonName3) = false from by decide, if_true, if_false]
          cases idxFrom rest canonName1 0 <;> cases idxFrom rest canonName3 0 <;> simp
        · rw [show scan3 (canonName2 :: rest) 1 = scan3 rest 2 from rfl, ← ih.2.2]
          unfold pairInOrder
          rw [idxFrom_cons, idxFrom_cons]
          simp only [show (canonName2 == canonName2) = true from rfl,
            show (canonName2 == canonName3) = false from by decide, if_true, if_false]
          cases idxFrom rest canonName3 0 <;> simp
        · rw [show scan3 (canonName2 :: rest) 2 = scan3 rest 2 from rfl, ← ih.2.2]
          rw [idxFrom_cons]
          simp only [show (canonName2 == canonName3) = false from by decide, if_false]
          cases idxFrom rest canonName3 0 <;> simp
      by_cases e3 : n = canonName3
      · subst e3
        refine ⟨?_, ?_, ?_⟩
        · rw [show scan3 (canonName3 :: rest) 0 = false from rfl]
          unfold canonicalInOrder
          rw [idxFrom_cons, idxFrom_cons, idxFrom_cons]
          simp only [show (canonName3 == canonName1) = false from by decide,
            show (canonName3 == canonName2) = false from by decide,
            show (canonName3 == canonName3) = true from rfl, if_true, if_false]
          cases idxFrom rest canonName1 0 <;> cases idxFrom rest canonName2 0 <;> simp
        · rw [show scan3 (canonName3 :: rest) 1 = false from rfl]
          unfold pairInOrder
          rw [idxFrom_cons, idxFrom_cons]
          simp only [show (canonName3 == canonName2) = false from by decide,
            show (canonName3 == canonName3) = true from rfl, if_true, if_false]
          cases idxFrom rest canonName2 0 <;> simp
        · rw [show scan3 (canonName3 :: rest) 2 = scan3 rest 3 from rfl, scan3_three]
          rw [idxFrom_cons]
          simp only [show (canonName3 == canonName3) = true from rfl, if_true]
          rfl
      · have hb1 : (n == canonName1) = false := beq_eq_false_iff_ne.mpr e1
        have hb2 : (n == canonName2) = false := beq_eq_false_iff_ne.mpr e2
        have hb3 : (n == canonName3) = false := beq_eq_false_iff_ne.mpr e3
        refine ⟨?_, ?_, ?_⟩
        · rw [scan3]
          simp only [show ((0 : Nat) == 3) = false from rfl,
            show ((0 : Nat) == 0) = true from rfl, hb1, hb2, hb3, Bool.or_self,
            Bool.false_eq_true, if_false, if_true]
          rw [← ih.1]
          unfold canonicalInOrder
          rw [idxFrom_cons, idxFrom_cons, idxFrom_cons]
          simp only [hb1, hb2, hb3, if_false]
          cases idxFrom rest canonName1 0 <;> cases idxFrom rest canonName2 0 <;>
            cases idxFrom rest canonName3 0 <;> simp [Nat.add_lt_add_iff_right]
        · rw [scan3]
          simp only [show ((1 : Nat) == 3) = false from rfl,
            show ((1 : Nat) == 0) = false from rfl, show ((1 : Nat) == 1) = true from rfl,
            hb2, hb3, Bool.false_eq_true, if_false, if_true]
          rw [← ih.2.1]
          unfold pairInOrder
          rw [idxFrom_cons, idxFrom_cons]
          simp only [hb2, hb3, if_false]
          cases idxFrom rest canonName2 0 <;> cases idxFrom rest canonName3 0 <;>
            simp [Nat.add_lt_add_iff_right]
        · rw [scan3]
          simp only [show ((2 : Nat) == 3) = false from rfl,
            show ((2 : Nat) == 0) = false from rfl, show ((2 : Nat) == 1) = false from rfl,
            hb3, Bool.false_eq_true, if_false]
          rw [← ih.2.2]
          rw [idxFrom_cons]
          simp only [hb3, if_false]
          cases idxFrom rest canonName3 0 <;> simp

theorem contains_snoc (l : List Str) (x y : Str) :
    (l ++ [x]).contains y = (l.contains y || (y == x)) := by
  have hb : (y == x) = decide (y = x) := by
    cases h : y == x
    · rw [eq_comm, decide_eq_false]
      intro he
      rw [he] at h
      simp at h
    · rw [eq_comm, decide_eq_true]
      exact beq_iff_eq.mp h
  simp [hb]

theorem h2Loop_spec (text : Str) (ms : List (Nat × Nat × Str)) :
    ∀ (sections : List (Nat × Str)) (extras enc : List Str), secInv sections enc →
    secInv (h2Loop text ms sections extras enc).1 (h2Loop text ms sections extras enc).2.2 ∧
    (h2Loop text ms sections extras enc).2.2 =
      encOf (ms.map (fun m => normalizeHeading (pyStrip m.2.2))) enc := by
  induction ms with
  | nil =>
      intro sections extras enc hinv
      exact ⟨hinv, rfl⟩
  | cons m rest ih =>
      intro sections extras enc hinv
      obtain ⟨p, e, g⟩ := m
      rw [h2Loop.eq_def]
      simp only [List.map_cons]
      rw [encOf]
      cases hk : canonicalKey? (normalizeHeading (pyStrip g)) with
      | none =>
          simp only [Option.isSome_none, Bool.false_and, Bool.false_eq_true, if_false]
          exact ih _ _ _ hinv
      | some k =>
          simp only [Option.isSome_some, Bool.true_and]
          rcases canonKey_cases hk with ⟨rfl, hname⟩ | ⟨rfl, hname⟩ | ⟨rfl, hname⟩
          · cases hlk : (List.lookup 1 sections).isNone with
            | false =>
                have hct : enc.contains canonName1 = true := by
                  rw [← hinv.1]
                  cases h' : List.lookup 1 sections
                  · rw [h'] at hlk
                    simp at hlk
                  · rfl
                simp only [Bool.false_eq_true, if_false]
                rw [if_neg (show ¬ ((!enc.contains (normalizeHeading (pyStrip g))) = true) by
                  rw [hname, hct]
                  simp)]
                exact ih _ _ _ hinv
            | true =>
                have hcf : enc.contains canonName1 = false := by
                  rw [← hinv.1]
                  cases h' : List.lookup 1 sections
                  · rfl
                  · rw [h'] at hlk
                    simp at hlk
                simp only [if_true]
                rw [if_pos (show (!enc.contains (normalizeHeading (pyStrip g))) = true by
                  rw [hname, hcf]
                  rfl)]
                refine ih _ _ _ ⟨?_, ?_, ?_⟩
                · rw [lookup_append_self, contains_snoc, hname]
                  simp
                · rw [lookup_append_other _ (by decide), contains_snoc, hname, hinv.2.1]
                  simp [show (canonName2 == canonName1) = false from by decide]
                · rw [lookup_append_other _ (by decide), contains_snoc, hname, hinv.2.2]
                  simp [show (canonName3 == canonName1) = false from by decide]
          · cases hlk : (List.lookup 2 sections).isNone with
            | false =>
                have hct : enc.contains canonName2 = true := by
                  rw [← hinv.2.1]
                  cases h' : List.lookup 2 sections
                  · rw [h'] at hlk
                    simp at hlk
                  · rfl
                simp only [Bool.false_eq_true, if_false]
                rw [if_neg (show ¬ ((!enc.contains (normalizeHeading (pyStrip g))) = true) by
                  rw [hname, hct]
                  simp)]
                exact ih _ _ _ hinv
            | true =>
                have hcf : enc.contains canonName2 = false := by
                  rw [← hinv.2.1]
                  cases h' : List.lookup 2 sections
                  · rfl
                  · rw [h'] at hlk
                    simp at hlk
                simp only [if_true]
                rw [if_pos (show (!enc.contains (normalizeHeading (pyStrip g))) = true by
                  rw [hname, hcf]
                  rfl)]
                refine ih _ _ _ ⟨?_, ?_, ?_⟩
                · rw [lookup_append_other _ (by decide), contains_snoc, hname, hinv.1]
                  simp [show (canonName1 == canonName2) = false from by decide]
                · rw [lookup_append_self, contains_snoc, hname]
                  simp
                · rw [lookup_append_other _ (by decide), contains_snoc, hname, hinv.2.2]
                  simp [show (canonName3 == canonName2) = false from by decide]
          · cases hlk : (List.lookup 3 sections).isNone with
            | false =>
                have hct : enc.contains canonName3 = true := by
                  rw [← hinv.2.2]
                  cases h' : List.lookup 3 sections
                  · rw [h'] at hlk
                    simp at hlk
                  · rfl
                simp only [Bool.false_eq_true, if_false]
                rw [if_neg (show ¬ ((!enc.contains (normalizeHeading (pyStrip g))) = true) by
                  rw [hname, hct]
                  simp)]
                exact ih _ _ _ hinv
            | true =>
                have hcf : enc.contains canonName3 = false := by
                  rw [← hinv.2.2]
                  cases h' : List.lookup 3 sections
                  · rfl
                  · rw [h'] at hlk
                    simp at hlk
                simp only [if_true]
                rw [if_pos (show (!enc.contains (normalizeHeading (pyStrip g))) = true by
                  rw [hname, hcf]
                  rfl)]
                refine ih _ _ _ ⟨?_, ?_, ?_⟩
                · rw [lookup_append_other _ (by decide), contains_snoc, hname, hinv.1]
                  simp [show (canonName1 == canonName3) = false from by decide]
                · rw [lookup_append_other _ (by decide), contains_snoc, hname, hinv.2.1]
                  simp [show (canonName2 == canonName3) = false from by decide]
                · rw [lookup_append_self, contains_snoc, hname]
                  simp

theorem h2Loop_enc (text : Str) (ms : List (Nat × Nat × Str)) (extras : List Str) :
    (h2Loop text ms [] extras []).2.2 =
      encOf (ms.map (fun m => normalizeHeading (pyStrip m.2.2))) [] :=
  (h2Loop_spec text ms [] extras [] ⟨rfl, rfl, rfl⟩).2

theorem h2Loop_lookup1 (text : Str) (ms : List (Nat × Nat × Str)) (extras : List Str) :
    (List.lookup 1 (h2Loop text ms [] extras []).1).isSome =
      (h2Loop text ms [] extras []).2.2.contains canonName1 :=
  (h2Loop_spec text ms [] extras [] ⟨rfl, rfl, rfl⟩).1.1

theorem h2Loop_lookup2 (text : Str) (ms : List (Nat × Nat × Str)) (extras : List Str) :
    (List.lookup 2 (h2Loop text ms [] extras []).1).isSome =
      (h2Loop text ms [] extras []).2.2.contains canonName2 :=
  (h2Loop_spec text ms [] extras [] ⟨rfl, rfl, rfl⟩).1.2.1

theorem h2Loop_lookup3 (text : Str) (ms : List (Nat × Nat × Str)) (extras : List Str) :
    (List.lookup 3 (h2Loop text ms [] extras []).1).isSome =
      (h2Loop text ms [] extras []).2.2.contains canonName3 :=
  (h2Loop_spec text ms [] extras [] ⟨rfl, rfl, rfl⟩).1.2.2

theorem from_markdown_structured (md fb : Str) :
    (from_markdown md fb).structured = canonicalInOrder (docHeadings md) := by
  unfold from_markdown
  dsimp only
  cases hh : h2Find (normalizeNewlines md) with
  | nil =>
      unfold docHeadings
      rw [hh]
      rfl
  | cons m ms =>
      rw [apply_ite TradingPlan.structured]
      dsimp only
      rw [show ∀ b : Bool, (if b = true then true else false) = b from by decide]
      unfold docHeadings
      rw [hh]
      rw [h2Loop_lookup1, h2Loop_lookup2, h2Loop_lookup3, h2Loop_enc]
      rw [(scan3_ord (List.map (fun m => normalizeHeading (pyStrip m.2.2)) (m :: ms))).1,
        ← (final_good (List.map (fun m => normalizeHeading (pyStrip m.2.2)) (m :: ms))).1]
      rfl

theorem from_markdown_raw (md fb : Str) :
    (from_markdown md fb).raw_markdown = normalizeNewlines md := by
  unfold from_markdown
  dsimp only
  cases hh : h2Find (normalizeNewlines md) with
  | nil => rfl
  | cons m ms =>
      rw [apply_ite TradingPlan.raw_markdown]
      dsimp only
      simp

theorem intercalate_cons2 (s a b : Str) (l : List Str) :
    List.intercalate s (a :: b :: l) = a ++ s ++ List.intercalate s (b :: l) := by
  simp only [List.intercalate, List.intersperse_cons_cons, List.flatten, List.append_assoc]

theorem intercalate_one (s a : Str) : List.intercalate s [a] = a := by
  simp [List.intercalate]

theorem takeWhile_append_all {p : Char → Bool} {a : Str} (c : Char) (r : Str)
    (ha : ∀ x ∈ a, p x = true) (hc : p c = false) :
    (a ++ c :: r).takeWhile p = a := by
  induction a with
  | nil => simp [List.takeWhile_cons, hc]
  | cons x xs ih =>
      rw [List.cons_append, List.takeWhile_cons, ha x (by simp)]
      simp only [if_true]
      rw [ih (fun y hy => ha y (by simp [hy]))]

theorem dropWhile_append_all {p : Char → Bool} {a : Str} (c : Char) (r : Str)
    (ha : ∀ x ∈ a, p x = true) (hc : p c = false) :
    (a ++ c :: r).dropWhile p = c :: r := by
  induction a with
  | nil => simp [List.dropWhile_cons, hc]
  | cons x xs ih =>
      rw [List.cons_append, List.dropWhile_cons, ha x (by simp)]
      simp only [if_true]
      exact ih (fun y hy => ha y (by simp [hy]))

theorem pyRstrip_snoc_ws {b : Str} {c : Char} (hc : isPySpace c = true) :
    pyRstrip (b ++ [c]) = pyRstrip b := by
  unfold pyRstrip
  rw [List.reverse_append]
  simp [List.dropWhile_cons, hc]

theorem pyRstrip_decomp (s : Str) :
    ∃ w, s = pyRstrip s ++ w ∧ ∀ c ∈ w, isPySpace c = true := by
  refine ⟨(s.reverse.takeWhile isPySpace).reverse, ?_, ?_⟩
  · unfold pyRstrip
    rw [← List.reverse_append, List.takeWhile_append_dropWhile, List.reverse_reverse]
  · intro c hc
    rw [List.mem_reverse] at hc
    exact List.mem_takeWhile_imp hc

theorem headD_append_left {a : Str} (b : Str) (d : Char) (h : a ≠ []) :
    (a ++ b).headD d = a.headD d := by
  cases a with
  | nil => exact absurd rfl h
  | cons x xs => rfl

theorem pyRstrip_head (s : Str) (d : Char) (h : pyRstrip s ≠ []) :
    (pyRstrip s).headD d = s.headD d := by
  obtain ⟨w, hw, -⟩ := pyRstrip_decomp s
  conv_rhs => rw [hw]
  rw [headD_append_left _ _ h]

theorem mem_pyLstrip {c : Char} {s : Str} (h : c ∈ pyLstrip s) : c ∈ s :=
  (List.dropWhile_sublist _).subset h

theorem mem_pyRstrip {c : Char} {s : Str} (h : c ∈ pyRstrip s) : c ∈ s := by
  unfold pyRstrip at h
  rw [List.mem_reverse] at h
  exact List.mem_reverse.mp ((List.dropWhile_sublist _).subset h)

theorem mem_pyStrip {c : Char} {s : Str} (h : c ∈ pyStrip s) : c ∈ s :=
  mem_pyLstrip (mem_pyRstrip h)

theorem dropWhile_idem (p : Char → Bool) (l : Str) :
    (l.dropWhile p).dropWhile p = l.dropWhile p := by
  induction l with
  | nil => rfl
  | cons c rest ih =>
      rw [List.dropWhile_cons]
      cases hc : p c
      · simp only [Bool.false_eq_true, if_false]
        rw [List.dropWhile_cons, hc]
        simp
      · simp only [if_true]
        exact ih

theorem rstrip_idem (s : Str) : pyRstrip (pyRstrip s) = pyRstrip s := by
  unfold pyRstrip
  rw [List.reverse_reverse, dropWhile_idem]

theorem normalizeNewlinesAux_id {s : Str} (h : ∀ c ∈ s, c ≠ '\r') :
    normalizeNewlinesAux s false = s := by
  induction s with
  | nil => rfl
  | cons c rest ih =>
      rw [normalizeNewlinesAux]
      rw [if_neg (by simp), if_neg (by simpa using h c (by simp))]
      rw [ih (fun x hx => h x (by simp [hx]))]

theorem normalizeNewlines_id {s : Str} (h : ∀ c ∈ s, c ≠ '\r') :
    normalizeNewlines s = s := normalizeNewlinesAux_id h

theorem lsAux_append (a b : Str) : ∀ p : Nat,
    lineStartSuffixesAux (a ++ b) p =
      (lineStartSuffixesAux a p).map (fun q => (q.1, q.2 ++ b)) ++
        lineStartSuffixesAux b (p + a.length) := by
  induction a with
  | nil => intro p; simp [lineStartSuffixesAux]
  | cons c rest ih =>
      intro p
      rw [List.cons_append, lineStartSuffixesAux, lineStartSuffixesAux]
      by_cases hc : c = '\n'
      · rw [if_pos hc, if_pos hc]
        simp only [List.map_cons, List.cons_append, ih (p + 1)]
        rw [show p + 1 + rest.length = p + (rest.length + 1) by omega]
        rfl
      · rw [if_neg hc, if_neg hc, ih (p + 1)]
        rw [show p + 1 + rest.length = p + (rest.length + 1) by omega]
        rfl

theorem lsAux_mem_shape {s : Str} {q : Nat × Str} :
    ∀ {p : Nat}, q ∈ lineStartSuffixesAux s p → ∃ pre, s = pre ++ '\n' :: q.2 := by
  induction s with
  | nil => intro p h; cases h
  | cons c rest ih =>
      intro p h
      rw [lineStartSuffixesAux] at h
      by_cases hc : c = '\n'
      · rw [if_pos hc] at h
        rcases List.mem_cons.mp h with rfl | h2
        · exact ⟨[], by simp [hc]⟩
        · obtain ⟨pre, hpre⟩ := ih h2
          exact ⟨c :: pre, by simp [hpre]⟩
      · rw [if_neg hc] at h
        obtain ⟨pre, hpre⟩ := ih h
        exact ⟨c :: pre, by simp [hpre]⟩

theorem pyStripNl_id {s : Str} (hh : s.headD 'x' ≠ '\n') (hl : s.getLastD 'x' ≠ '\n') :
    pyStripNl s = s := by
  unfold pyStripNl
  cases s with
  | nil => rfl
  | cons c rest =>
      rw [List.dropWhile_cons, if_neg (by simpa using hh)]
      cases hrev : (c :: rest).reverse with
      | nil => simp at hrev
      | cons d drest =>
          rw [List.dropWhile_cons]
          have hd : d = (c :: rest).getLastD 'x' := by
            rw [List.getLastD_eq_getLast?, ← List.head?_reverse, hrev]
            rfl
          rw [if_neg (by simp [hd ▸ hl])]
          rw [← hrev, List.reverse_reverse]

theorem bodyOk_parts {b : Str} (h : bodyOk b = true) (hne : b ≠ []) :
    (∀ c ∈ b, c ≠ '\r') ∧ pyRstrip b = b ∧
    (b.takeWhile (fun c => !(c == '\n'))).any (fun c => !isPySpace c) = true ∧
    noH2Lines b = true := by
  unfold bodyOk at h
  rw [Bool.or_eq_true] at h
  rcases h with h | h
  · rw [List.isEmpty_iff] at h
    exact absurd h hne
  · rw [Bool.and_eq_true, Bool.and_eq_true, Bool.and_eq_true] at h
    refine ⟨?_, ?_, ?_, h.2⟩
    · intro c hc
      have := List.all_eq_true.mp h.1.1.1 c hc
      simpa using this
    · exact beq_iff_eq.mp h.1.1.2
    · exact h.1.2

theorem takeWhile_ws_line {b : Str}
    (hfl : (b.takeWhile (fun c => !(c == '\n'))).any (fun c => !isPySpace c) = true) :
    (∀ c ∈ b.takeWhile isPySpace, c ≠ '\n') ∧ (b.takeWhile isPySpace).length < b.length := by
  induction b with
  | nil => simp at hfl
  | cons c rest ih =>
      rw [List.takeWhile_cons] at hfl
      by_cases hc : c = '\n'
      · rw [if_neg (by simp [hc])] at hfl
        simp at hfl
      · rw [if_pos (by simp [hc])] at hfl
        rw [List.any_cons, Bool.or_eq_true] at hfl
        cases hws : isPySpace c
        · refine ⟨?_, ?_⟩
          · rw [List.takeWhile_cons, hws]
            intro x hx
            simp at hx
          · rw [List.takeWhile_cons, hws]
            simp
        · rcases hfl with hfl | hfl
          · rw [hws] at hfl
            simp at hfl
          · obtain ⟨ih1, ih2⟩ := ih hfl
            refine ⟨?_, ?_⟩
            · rw [List.takeWhile_cons, hws]
              simp only [if_true]
              intro x hx
              rcases List.mem_cons.mp hx with rfl | hx2
              · exact hc
              · exact ih1 x hx2
            · rw [List.takeWhile_cons, hws]
              simpa using ih2

theorem rstrip_getLast {b : Str} (h : pyRstrip b = b) (hne : b ≠ []) :
    isPySpace (b.getLastD 'x') = false := by
  cases hrev : b.reverse with
  | nil => exact absurd (by simpa using congrArg List.reverse hrev) hne
  | cons d r =>
      have hd : b.getLastD 'x' = d := by
        rw [List.getLastD_eq_getLast?, ← List.head?_reverse, hrev]
        rfl
      rw [hd]
      cases hws : isPySpace d
      · rfl
      · exfalso
        have hlen : (pyRstrip b).length < b.length := by
          unfold pyRstrip
          rw [hrev, List.dropWhile_cons, hws]
          simp only [if_true]
          rw [List.length_reverse]
          have h1 : (List.dropWhile isPySpace r).length ≤ r.length :=
            (List.dropWhile_sublist isPySpace).length_le
          have h2 : b.length = r.length + 1 := by
            rw [← List.length_reverse, hrev]
            rfl
          omega
        rw [h] at hlen
        omega

theorem bodyOk_stripNl {b : Str} (h : bodyOk b = true) : pyStripNl b = b := by
  by_cases hne : b = []
  · subst hne
    rfl
  · obtain ⟨-, hrs, hfl, -⟩ := bodyOk_parts h hne
    apply pyStripNl_id
    · intro hcon
      cases b with
      | nil => exact hne rfl
      | cons c rest =>
          have hc : c = '\n' := hcon
          rw [List.takeWhile_cons, if_neg (by simp [hc])] at hfl
          simp at hfl
    · intro hcon
      have := rstrip_getLast hrs hne
      rw [hcon] at this
      simp [isPySpace] at this

theorem findIdx_nl_snoc {l : Str} (h : ∀ c ∈ l, c ≠ '\n') :
    ∀ i, List.findIdx? (fun c => decide (c = '\n')) (l ++ ['\n']) i = some (i + l.length) := by
  induction l with
  | nil =>
      intro i
      simp [List.findIdx?_cons]
  | cons c rest ih =>
      intro i
      rw [List.cons_append, List.findIdx?_cons]
      rw [if_neg (by simpa using h c (by simp))]
      rw [ih (fun x hx => h x (by simp [hx])) (i + 1)]
      congr 1
      simp
      omega

theorem findIdxRev_nl_run {tws : Str} (h : ∀ c ∈ tws, c ≠ '\n') :
    findIdxRev (fun c => decide (c = '\n')) ('\n' :: tws) = some 0 := by
  unfold findIdxRev
  rw [List.reverse_cons, findIdx_nl_snoc (fun c hc => h c (List.mem_reverse.mp hc)) 0]
  simp

theorem tailEndOffset_cons_body {s : Str}
    (h1 : ∀ c ∈ s.takeWhile isPySpace, c ≠ '\n')
    (h2 : (s.takeWhile isPySpace).length < s.length) :
    tailEndOffset ('\n' :: s) = 0 := by
  have hr : ('\n' :: s).takeWhile isPySpace = '\n' :: s.takeWhile isPySpace := by
    rw [List.takeWhile_cons]
    simp [show isPySpace '\n' = true from rfl]
  unfold tailEndOffset
  rw [hr]
  rw [if_neg (show ¬ (('\n' :: s.takeWhile isPySpace).length = ('\n' :: s).length) from by
    simp
    omega)]
  rw [findIdxRev_nl_run h1]

theorem tailEndOffset_two_nl {r : Str} (hr : isPySpace (r.headD ' ') = false)
    (hne : r ≠ []) : tailEndOffset ('\n' :: '\n' :: r) = 1 := by
  have htw : r.takeWhile isPySpace = [] := by
    cases r with
    | nil => rfl
    | cons c rest =>
        rw [List.takeWhile_cons, if_neg (by simp [show isPySpace c = false from hr])]
  have hr2 : ('\n' :: '\n' :: r).takeWhile isPySpace = ['\n', '\n'] := by
    rw [List.takeWhile_cons]
    simp only [show isPySpace '\n' = true from rfl, if_true]
    rw [List.takeWhile_cons]
    simp only [show isPySpace '\n' = true from rfl, if_true, htw]
  unfold tailEndOffset
  rw [hr2]
  rw [if_neg (show ¬ ((['\n', '\n'] : Str).length = ('\n' :: '\n' :: r).length) from by
    simp
    cases r
    · exact absurd rfl hne
    · simp)]
  rw [show findIdxRev (fun c => decide (c = '\n')) ['\n', '\n'] = some 1 from by decide]

theorem tailEndOffset_nl_end : tailEndOffset ['\n'] = 1 := by decide

theorem h2MatchS_none_of_take2 {s : Str} (h : s.take 2 ≠ pyS "##") : h2MatchS s = none := by
  unfold h2MatchS
  split
  · exact absurd rfl h
  · rfl

theorem tailMatchS_ws1 {H : Str} (after : Str) (hne : H ≠ [])
    (hhead : isPySpace (H.headD ' ') = false)
    (hnl : ∀ c ∈ H, c ≠ '\n') (hrs : pyRstrip H = H) :
    tailMatchS (' ' :: (H ++ '\n' :: after)) 1 =
      some (1 + (H.length + tailEndOffset ('\n' :: after)), H) := by
  cases H with
  | nil => exact absurd rfl hne
  | cons h0 t0 =>
      have hws0 : isPySpace h0 = false := hhead
      have hrun : (' ' :: ((h0 :: t0) ++ '\n' :: after)).takeWhile isPySpace = [' '] := by
        rw [List.takeWhile_cons]
        simp only [show isPySpace ' ' = true from rfl, if_true]
        rw [List.cons_append, List.takeWhile_cons, if_neg (by simp [hws0])]
      have hline : ((h0 :: t0) ++ '\n' :: after).takeWhile (fun c => decide (¬ c = '\n')) =
          h0 :: t0 := by
        apply takeWhile_append_all
        · intro x hx
          simpa using hnl x hx
        · simp
      unfold tailMatchS
      rw [hrun]
      rw [if_neg (by decide)]
      rw [show (' ' :: ((h0 :: t0) ++ '\n' :: after)).drop ([' '] : Str).length =
        (h0 :: t0) ++ '\n' :: after from rfl]
      rw [List.cons_append]
      dsimp only
      rw [← List.cons_append, hline, hrs]
      rw [show ((h0 :: t0) ++ '\n' :: after).drop (h0 :: t0).length = '\n' :: after from
        List.drop_left _ _]
      rw [show ([' '] : Str).length = 1 from rfl, Nat.add_assoc]

theorem h2MatchS_heading {H : Str} (after : Str) (hne : H ≠ [])
    (hhead : isPySpace (H.headD ' ') = false)
    (hnl : ∀ c ∈ H, c ≠ '\n') (hrs : pyRstrip H = H) :
    h2MatchS (pyS "## " ++ (H ++ '\n' :: after)) =
      some (1 + (H.length + tailEndOffset ('\n' :: after)) + 2, H) := by
  rw [show pyS "## " ++ (H ++ '\n' :: after) = '#' :: '#' :: (' ' :: (H ++ '\n' :: after))
    from rfl]
  show Option.map (fun r => (r.1 + 2, r.2)) (tailMatchS (' ' :: (H ++ '\n' :: after)) 1) = _
  rw [tailMatchS_ws1 after hne hhead hnl hrs]
  rfl

theorem titleMatchS_title {t : Str} (after : Str) (hne : t ≠ [])
    (hhead : isPySpace (t.headD ' ') = false)
    (hnl : ∀ c ∈ t, c ≠ '\n') (hrs : pyRstrip t = t) :
    titleMatchS ('#' :: ' ' :: (t ++ '\n' :: after)) =
      some (0 + 1 + (1 + (t.length + tailEndOffset ('\n' :: after))), t) := by
  have hrun : ('#' :: ' ' :: (t ++ '\n' :: after)).takeWhile isPySpace = [] := by
    rw [List.takeWhile_cons]
    simp [show isPySpace '#' = false from rfl]
  unfold titleMatchS
  rw [hrun]
  show Option.map (fun r => (([] : Str).length + 1 + r.1, r.2))
    (tailMatchS (' ' :: (t ++ '\n' :: after)) 1) = _
  rw [tailMatchS_ws1 after hne hhead hnl hrs]
  rfl

theorem pyRstrip_tail_body {X b : Str} (hb : pyRstrip b = b) (hbne : b ≠ []) :
    pyRstrip (X ++ (b ++ ['\n'])) = X ++ b := by
  rw [show X ++ (b ++ ['\n']) = (X ++ b) ++ ['\n'] from by simp,
    pyRstrip_snoc_ws (show isPySpace '\n' = true from rfl),
    pyRstrip_append (show pyRstrip b ≠ [] from by rw [hb]; exact hbne), hb]

theorem to_markdown_form (p : TradingPlan)
    (h1 : bodyOk p.block1 = true) (h2 : bodyOk p.block2 = true) (h3 : bodyOk p.block3 = true)
    (he : p.extras = []) :
    to_markdown p =
      pyS "# " ++ (if (pyStrip p.title).isEmpty = true then pyS "Без названия"
        else pyStrip p.title) ++
      '\n' :: '\n' :: (pyS "## " ++ heading1txt ++ '\n' ::
        ((if p.block1 = [] then ['\n'] else p.block1 ++ ['\n', '\n']) ++
         (pyS "## " ++ heading2txt ++ '\n' ::
          ((if p.block2 = [] then ['\n'] else p.block2 ++ ['\n', '\n']) ++
           (pyS "## " ++ heading3txt ++ '\n' ::
            (if p.block3 = [] then [] else p.block3 ++ ['\n'])))))) := by
  unfold to_markdown sectionLines
  dsimp only
  rw [he, bodyOk_stripNl h1, bodyOk_stripNl h2, bodyOk_stripNl h3]
  rw [show pyStripNl ([] : Str) = [] from rfl]
  simp only [List.isEmpty_nil, if_true, List.append_nil]
  by_cases hb1 : p.block1 = [] <;> by_cases hb2 : p.block2 = [] <;> by_cases hb3 : p.block3 = []
  · rw [if_pos (show p.block1.isEmpty = true from List.isEmpty_iff.mpr hb1)]
    rw [if_pos hb1]
    rw [if_pos (show p.block2.isEmpty = true from List.isEmpty_iff.mpr hb2)]
    rw [if_pos hb2]
    rw [if_pos (show p.block3.isEmpty = true from List.isEmpty_iff.mpr hb3)]
    rw [if_pos hb3]
    rw [show pyS "\n" = ['\n'] from rfl]
    simp only [List.cons_append, List.nil_append, List.append_nil]
    simp only [intercalate_cons2, intercalate_one]
    simp only [List.append_nil, List.nil_append]
    simp only [← List.append_assoc]
    rw [pyRstrip_snoc_ws (show isPySpace '\n' = true from rfl)]
    rw [pyRstrip_append (show pyRstrip heading3txt ≠ [] from by decide),
      show pyRstrip heading3txt = heading3txt from by decide]
    simp [List.append_assoc]
  · rw [if_pos (show p.block1.isEmpty = true from List.isEmpty_iff.mpr hb1)]
    rw [if_pos hb1]
    rw [if_pos (show p.block2.isEmpty = true from List.isEmpty_iff.mpr hb2)]
    rw [if_pos hb2]
    rw [if_neg (show ¬ (p.block3.isEmpty = true) from by simp [List.isEmpty_iff, hb3])]
    rw [if_neg hb3]
    obtain ⟨-, hr3, -, -⟩ := bodyOk_parts h3 hb3
    rw [show pyS "\n" = ['\n'] from rfl]
    simp only [List.cons_append, List.nil_append, List.append_nil]
    simp only [intercalate_cons2, intercalate_one]
    simp only [List.append_nil, List.nil_append]
    simp only [← List.append_assoc]
    rw [pyRstrip_snoc_ws (show isPySpace '\n' = true from rfl)]
    rw [pyRstrip_append (show pyRstrip p.block3 ≠ [] from by rw [hr3]; exact hb3), hr3]
    simp [List.append_assoc]
  · rw [if_pos (show p.block1.isEmpty = true from List.isEmpty_iff.mpr hb1)]
    rw [if_pos hb1]
    rw [if_neg (show ¬ (p.block2.isEmpty = true) from by simp [List.isEmpty_iff, hb2])]
    rw [if_neg hb2]
    rw [if_pos (show p.block3.isEmpty = true from List.isEmpty_iff.mpr hb3)]
    rw [if_pos hb3]
    obtain ⟨-, hr2, -, -⟩ := bodyOk_parts h2 hb2
    rw [show pyS "\n" = ['\n'] from rfl]
    simp only [List.cons_append, List.nil_append, List.append_nil]
    simp only [intercalate_cons2, intercalate_one]
    simp only [List.append_nil, List.nil_append]
    simp only [← List.append_assoc]
    rw [pyRstrip_snoc_ws (show isPySpace '\n' = true from rfl)]
    rw [pyRstrip_append (show pyRstrip heading3txt ≠ [] from by decide),
      show pyRstrip heading3txt = heading3txt from by decide]
    simp [List.append_assoc]
  · rw [if_pos (show p.block1.isEmpty = true from List.isEmpty_iff.mpr hb1)]
    rw [if_pos hb1]
    rw [if_neg (show ¬ (p.block2.isEmpty = true) from by simp [List.isEmpty_iff, hb2])]
    rw [if_neg hb2]
    rw [if_neg (show ¬ (p.block3.isEmpty = true) from by simp [List.isEmpty_iff, hb3])]
    rw [if_neg hb3]
    obtain ⟨-, hr2, -, -⟩ := bodyOk_parts h2 hb2
    obtain ⟨-, hr3, -, -⟩ := bodyOk_parts h3 hb3
    rw [show pyS "\n" = ['\n'] from rfl]
    simp only [List.cons_append, List.nil_append, List.append_nil]
    simp only [intercalate_cons2, intercalate_one]
    simp only [List.append_nil, List.nil_append]
    simp only [← List.append_assoc]
    rw [pyRstrip_snoc_ws (show isPySpace '\n' = true from rfl)]
    rw [pyRstrip_append (show pyRstrip p.block3 ≠ [] from by rw [hr3]; exact hb3), hr3]
    simp [List.append_assoc]
  · rw [if_neg (show ¬ (p.block1.isEmpty = true) from by simp [List.isEmpty_iff, hb1])]
    rw [if_neg hb1]
    rw [if_pos (show p.block2.isEmpty = true from List.isEmpty_iff.mpr hb2)]
    rw [if_pos hb2]
    rw [if_pos (show p.block3.isEmpty = true from List.isEmpty_iff.mpr hb3)]
    rw [if_pos hb3]
    obtain ⟨-, hr1, -, -⟩ := bodyOk_parts h1 hb1
    rw [show pyS "\n" = ['\n'] from rfl]
    simp only [List.cons_append, List.nil_append, List.append_nil]
    simp only [intercalate_cons2, intercalate_one]
    simp only [List.append_nil, List.nil_append]
    simp only [← List.append_assoc]
    rw [pyRstrip_snoc_ws (show isPySpace '\n' = true from rfl)]
    rw [pyRstrip_append (show pyRstrip heading3txt ≠ [] from by decide),
      show pyRstrip heading3txt = heading3txt from by decide]
    simp [List.append_assoc]
  · rw [if_neg (show ¬ (p.block1.isEmpty = true) from by simp [List.isEmpty_iff, hb1])]
    rw [if_neg hb1]
    rw [if_pos (show p.block2.isEmpty = true from List.isEmpty_iff.mpr hb2)]
    rw [if_pos hb2]
    rw [if_neg (show ¬ (p.block3.isEmpty = true) from by simp [List.isEmpty_iff, hb3])]
    rw [if_neg hb3]
    obtain ⟨-, hr1, -, -⟩ := bodyOk_parts h1 hb1
    obtain ⟨-, hr3, -, -⟩ := bodyOk_parts h3 hb3
    rw [show pyS "\n" = ['\n'] from rfl]
    simp only [List.cons_append, List.nil_append, List.append_nil]
    simp only [intercalate_cons2, intercalate_one]
    simp only [List.append_nil, List.nil_append]
    simp only [← List.append_assoc]
    rw [pyRstrip_snoc_ws (show isPySpace '\n' = true from rfl)]
    rw [pyRstrip_append (show pyRstrip p.block3 ≠ [] from by rw [hr3]; exact hb3), hr3]
    simp [List.append_assoc]
  · rw [if_neg (show ¬ (p.block1.isEmpty = true) from by simp [List.isEmpty_iff, hb1])]
    rw [if_neg hb1]
    rw [if_neg (show ¬ (p.block2.isEmpty = true) from by simp [List.isEmpty_iff, hb2])]
    rw [if_neg hb2]
    rw [if_pos (show p.block3.isEmpty = true from List.isEmpty_iff.mpr hb3)]
    rw [if_pos hb3]
    obtain ⟨-, hr1, -, -⟩ := bodyOk_parts h1 hb1
    obtain ⟨-, hr2, -, -⟩ := bodyOk_parts h2 hb2
    rw [show pyS "\n" = ['\n'] from rfl]
    simp only [List.cons_append, List.nil_append, List.append_nil]
    simp only [intercalate_cons2, intercalate_one]
    simp only [List.append_nil, List.nil_append]
    simp only [← List.append_assoc]
    rw [pyRstrip_snoc_ws (show isPySpace '\n' = true from rfl)]
    rw [pyRstrip_append (show pyRstrip heading3txt ≠ [] from by decide),
      show pyRstrip heading3txt = heading3txt from by decide]
    simp [List.append_assoc]
  · rw [if_neg (show ¬ (p.block1.isEmpty = true) from by simp [List.isEmpty_iff, hb1])]
    rw [if_neg hb1]
    rw [if_neg (show ¬ (p.block2.isEmpty = true) from by simp [List.isEmpty_iff, hb2])]
    rw [if_neg hb2]
    rw [if_neg (show ¬ (p.block3.isEmpty = true) from by simp [List.isEmpty_iff, hb3])]
    rw [if_neg hb3]
    obtain ⟨-, hr1, -, -⟩ := bodyOk_parts h1 hb1
    obtain ⟨-, hr2, -, -⟩ := bodyOk_parts h2 hb2
    obtain ⟨-, hr3, -, -⟩ := bodyOk_parts h3 hb3
    rw [show pyS "\n" = ['\n'] from rfl]
    simp only [List.cons_append, List.nil_append, List.append_nil]
    simp only [intercalate_cons2, intercalate_one]
    simp only [List.append_nil, List.nil_append]
    simp only [← List.append_assoc]
    rw [pyRstrip_snoc_ws (show isPySpace '\n' = true from rfl)]
    rw [pyRstrip_append (show pyRstrip p.block3 ≠ [] from by rw [hr3]; exact hb3), hr3]
    simp [List.append_assoc]

theorem takeWhile_append_stop {p : Char → Bool} {a : Str} (b : Str)
    (h : (a.takeWhile p).length < a.length) :
    (a ++ b).takeWhile p = a.takeWhile p := by
  induction a with
  | nil => simp at h
  | cons c rest ih =>
      rw [List.cons_append, List.takeWhile_cons, List.takeWhile_cons]
      cases hc : p c
      · simp
      · simp only [if_true]
        rw [List.takeWhile_cons, hc] at h
        simp only [if_true, List.length_cons] at h
        rw [ih (by omega)]

theorem lsAux_no_nl {s : Str} (h : ∀ c ∈ s, c ≠ '\n') :
    ∀ p, lineStartSuffixesAux s p = [] := by
  induction s with
  | nil => intro p; rfl
  | cons c rest ih =>
      intro p
      rw [lineStartSuffixesAux, if_neg (h c (by simp)), ih (fun x hx => h x (by simp [hx]))]

theorem bodyOk_head_ne_nl {b : Str} (h : bodyOk b = true) (hne : b ≠ []) :
    b.headD 'x' ≠ '\n' := by
  obtain ⟨-, -, hfl, -⟩ := bodyOk_parts h hne
  intro hcon
  cases b with
  | nil => exact hne rfl
  | cons c rest =>
      have hc : c = '\n' := hcon
      rw [List.takeWhile_cons, if_neg (by simp [hc])] at hfl
      simp at hfl

theorem bodyOk_last_ne_nl {b : Str} (h : bodyOk b = true) (hne : b ≠ []) :
    b.getLastD 'x' ≠ '\n' := by
  obtain ⟨-, hrs, -, -⟩ := bodyOk_parts h hne
  intro hcon
  have := rstrip_getLast hrs hne
  rw [hcon] at this
  simp [isPySpace] at this

theorem pyStripNl_wrap {b nls : Str} (hne : b ≠ []) (hh : b.headD 'x' ≠ '\n')
    (hl : b.getLastD 'x' ≠ '\n') (hn : ∀ c ∈ nls, c = '\n') :
    pyStripNl ('\n' :: (b ++ nls)) = b := by
  unfold pyStripNl
  rw [List.dropWhile_cons, if_pos (by simp)]
  have hdw : (b ++ nls).dropWhile (fun c => decide (c = '\n')) = b ++ nls := by
    cases b with
    | nil => exact absurd rfl hne
    | cons c rest =>
        rw [List.cons_append, List.dropWhile_cons, if_neg (by simpa using hh)]
  rw [hdw, List.reverse_append]
  have hdw2 : (nls.reverse ++ b.reverse).dropWhile (fun c => decide (c = '\n')) =
      b.reverse := by
    rw [List.dropWhile_append]
    have hall : nls.reverse.dropWhile (fun c => decide (c = '\n')) = [] := by
      rw [List.dropWhile_eq_nil_iff]
      intro x hx
      simp [hn x (List.mem_reverse.mp hx)]
    rw [hall]
    simp only [List.isEmpty_nil, if_true]
    cases hrev : b.reverse with
    | nil => exact absurd (by simpa using congrArg List.reverse hrev) hne
    | cons d r =>
        rw [List.dropWhile_cons]
        have hd : d = b.getLastD 'x' := by
          rw [List.getLastD_eq_getLast?, ← List.head?_reverse, hrev]
          rfl
        rw [if_neg (by simp [hd ▸ hl])]
  rw [hdw2, List.reverse_reverse]

theorem forall_mem_append {P : Char → Prop} {a b : Str} (ha : ∀ c ∈ a, P c)
    (hb : ∀ c ∈ b, P c) : ∀ c ∈ a ++ b, P c := by
  intro c hc
  rcases List.mem_append.mp hc with h | h
  · exact ha c h
  · exact hb c h

theorem forall_mem_cons_c {P : Char → Prop} {a : Str} {x : Char} (hx : P x)
    (ha : ∀ c ∈ a, P c) : ∀ c ∈ x :: a, P c := by
  intro c hc
  rcases List.mem_cons.mp hc with rfl | h
  · exact hx
  · exact ha c h

theorem getLastD_concat_c (pre : Str) (a d : Char) : (pre ++ [a]).getLastD d = a := by
  rw [List.getLastD_eq_getLast?, ← List.head?_reverse, List.reverse_append]
  rfl

theorem body_no_h2_suffix {b : Str} (hok : bodyOk b = true) (hbne : b ≠ []) :
    ∀ q ∈ lineStartSuffixes b, ∀ r : Str, h2MatchS (q.2 ++ '\n' :: r) = none := by
  intro q hq r
  obtain ⟨-, -, -, hh2⟩ := bodyOk_parts hok hbne
  have htake : q.2.take 2 ≠ pyS "##" := by
    have := List.all_eq_true.mp hh2 q hq
    simpa using this
  have hqne : q.2 ≠ [] := by
    rcases List.mem_cons.mp hq with heq | hmem
    · rw [heq]
      exact hbne
    · obtain ⟨pre, hpre⟩ := lsAux_mem_shape hmem
      intro hcon
      rw [hcon] at hpre
      have := bodyOk_last_ne_nl hok hbne
      rw [hpre] at this
      exact this (getLastD_concat_c pre '\n' 'x')
  cases hq2 : q.2 with
  | nil => exact absurd hq2 hqne
  | cons c1 t =>
      cases t with
      | nil =>
          apply h2MatchS_none_of_take2
          intro hcon
          rw [List.cons_append, List.nil_append] at hcon
          have : '\n' = '#' := by
            have := List.cons.inj hcon
            exact (List.cons.inj this.2).1
          exact absurd this (by decide)
      | cons c2 t2 =>
          apply h2MatchS_none_of_take2
          intro hcon
          apply htake
          rw [hq2]
          rw [List.cons_append, List.cons_append] at hcon
          rw [show (c1 :: c2 :: t2).take 2 = c1 :: c2 :: [] from rfl]
          rw [show (c1 :: c2 :: (t2 ++ '\n' :: r)).take 2 = c1 :: c2 :: [] from rfl] at hcon
          exact hcon

theorem dropWhile_head_not {p : Char → Bool} {l : Str} (h : l.dropWhile p ≠ []) :
    p ((l.dropWhile p).headD 'x') = false := by
  induction l with
  | nil => exact absurd rfl h
  | cons c rest ih =>
      rw [List.dropWhile_cons]
      cases hc : p c
      · simpa using hc
      · simp only [if_true]
        rw [List.dropWhile_cons, hc] at h
        simp only [if_true] at h
        exact ih h

theorem pyStrip_facts {s : Str} (hne : pyStrip s ≠ []) :
    isPySpace ((pyStrip s).headD ' ') = false ∧ pyRstrip (pyStrip s) = pyStrip s := by
  constructor
  · have hl : pyLstrip s ≠ [] := by
      intro hcon
      apply hne
      unfold pyStrip
      rw [hcon]
      rfl
    have hhd : ∀ d : Char, (pyLstrip s).headD d = (pyLstrip s).headD 'x' := by
      cases hpl : pyLstrip s with
      | nil => exact absurd hpl hl
      | cons c r => intro d; rfl
    unfold pyStrip
    rw [pyRstrip_head (pyLstrip s) ' ' hne, hhd ' ']
    exact dropWhile_head_not hl
  · exact rstrip_idem (pyLstrip s)

theorem to_markdown_docOf (p : TradingPlan)
    (h1 : bodyOk p.block1 = true) (h2 : bodyOk p.block2 = true) (h3 : bodyOk p.block3 = true)
    (he : p.extras = []) :
    to_markdown p = docOf
      (if (pyStrip p.title).isEmpty = true then pyS "Без названия" else pyStrip p.title)
      p.block1 p.block2 p.block3 := by
  rw [to_markdown_form p h1 h2 h3 he]
  rfl

theorem lsAux_shift (s : Str) : ∀ p, lineStartSuffixesAux s p =
    (lineStartSuffixesAux s 0).map (fun r => (r.1 + p, r.2)) := by
  induction s with
  | nil => intro p; rfl
  | cons c rest ih =>
      intro p
      rw [lineStartSuffixesAux, lineStartSuffixesAux]
      by_cases hc : c = '\n'
      · rw [if_pos hc, if_pos hc, List.map_cons]
        rw [ih (p + 1), ih 1, List.map_map]
        congr 1
        · simp [Nat.add_comm]
        · apply List.map_congr_left
          intro r _
          simp
          omega
      · rw [if_neg hc, if_neg hc, ih (p + 1), ih 1, List.map_map]
        apply List.map_congr_left
        intro r _
        simp
        omega

theorem h2MatchS_nl (x : Str) : h2MatchS ('\n' :: x) = none := rfl

theorem lsAux_two_nl (R : Str) (p : Nat) :
    lineStartSuffixesAux ('\n' :: '\n' :: R) p =
      (p + 1, '\n' :: R) :: (p + 2, R) :: lineStartSuffixesAux R (p + 2) := by
  rw [lineStartSuffixesAux, if_pos rfl, lineStartSuffixesAux, if_pos rfl]

theorem lsAux_hash_head (H : Str) (hHnl : ∀ c ∈ H, c ≠ '\n') (q : Nat) :
    lineStartSuffixesAux (pyS "## " ++ H) q = [] := by
  rw [lsAux_append]
  rw [show lineStartSuffixesAux (pyS "## ") q = [] from rfl]
  rw [lsAux_no_nl hHnl]
  rfl

set_option maxHeartbeats 1000000 in
theorem sec_matches_mid (H b REST : Str) (q : Nat)
    (hHne : H ≠ []) (hHhead : isPySpace (H.headD ' ') = false)
    (hHnl : ∀ c ∈ H, c ≠ '\n') (hHrs : pyRstrip H = H)
    (hb : bodyOk b = true)
    (hRne : REST ≠ []) (hRhead : isPySpace (REST.headD ' ') = false) :
    matchesAt (lineCands (pyS "## " ++ H ++ '\n' :: (midTail b ++ REST)) q) h2MatchS =
      (q, q + (1 + (H.length + (if b = [] then 1 else 0)) + 2), H) ::
        matchesAt (lineCands REST (q + (4 + H.length + (midTail b).length))) h2MatchS := by
  by_cases hbe : b = []
  · subst hbe
    rw [if_pos rfl, show midTail ([] : Str) = ['\n'] from rfl]
    have hm0 : h2MatchS ((pyS "## " ++ H) ++ '\n' :: '\n' :: REST) =
        some (1 + (H.length + 1) + 2, H) := by
      rw [show (pyS "## " ++ H) ++ '\n' :: '\n' :: REST =
        pyS "## " ++ (H ++ '\n' :: ('\n' :: REST)) from by simp]
      rw [h2MatchS_heading ('\n' :: REST) hHne hHhead hHnl hHrs]
      rw [tailEndOffset_two_nl hRhead hRne]
    unfold lineCands matchesAt
    rw [show pyS "## " ++ H ++ '\n' :: ((['\n'] : Str) ++ REST) =
      (pyS "## " ++ H) ++ '\n' :: '\n' :: REST from rfl]
    rw [lsAux_append, lsAux_hash_head H hHnl, List.map_nil, List.nil_append, lsAux_two_nl]
    rw [List.filterMap_cons, List.filterMap_cons]
    simp only [hm0, h2MatchS_nl, Option.map_some', Option.map_none']
    rw [List.length_append, show (pyS "## ").length = 3 from rfl,
      show (['\n'] : Str).length = 1 from rfl]
    rw [show q + (3 + H.length) + 2 = q + (4 + H.length + 1) from by omega]
  · rw [if_neg hbe, show midTail b = b ++ ['\n', '\n'] from by rw [midTail, if_neg hbe]]
    have hbhead : b.headD 'x' ≠ '\n' := bodyOk_head_ne_nl hb hbe
    obtain ⟨-, -, hfl, -⟩ := bodyOk_parts hb hbe
    obtain ⟨htw1, htw2⟩ := takeWhile_ws_line hfl
    have hm0 : h2MatchS ((pyS "## " ++ H) ++ '\n' :: (b ++ '\n' :: '\n' :: REST)) =
        some (1 + (H.length + 0) + 2, H) := by
      rw [show (pyS "## " ++ H) ++ '\n' :: (b ++ '\n' :: '\n' :: REST) =
        pyS "## " ++ (H ++ '\n' :: (b ++ '\n' :: '\n' :: REST)) from by simp]
      rw [h2MatchS_heading (b ++ '\n' :: '\n' :: REST) hHne hHhead hHnl hHrs]
      rw [tailEndOffset_cons_body
        (show ∀ c ∈ (b ++ '\n' :: '\n' :: REST).takeWhile isPySpace, c ≠ '\n' from by
          rw [takeWhile_append_stop _ htw2]
          exact htw1)
        (show ((b ++ '\n' :: '\n' :: REST).takeWhile isPySpace).length <
            (b ++ '\n' :: '\n' :: REST).length from by
          rw [takeWhile_append_stop _ htw2, List.length_append]
          omega)]
    unfold lineCands matchesAt
    rw [show pyS "## " ++ H ++ '\n' :: ((b ++ ['\n', '\n']) ++ REST) =
      (pyS "## " ++ H) ++ '\n' :: (b ++ '\n' :: '\n' :: REST) from by simp]
    rw [lsAux_append, lsAux_hash_head H hHnl, List.map_nil, List.nil_append]
    rw [lineStartSuffixesAux, if_pos rfl]
    rw [lsAux_append, lsAux_two_nl]
    rw [List.filterMap_cons, List.filterMap_cons]
    simp only [hm0, Option.map_some']
    rw [List.filterMap_append]
    rw [show List.filterMap
        (fun c => (h2MatchS c.2).map (fun r => (c.1, c.1 + r.1, r.2)))
        ((lineStartSuffixesAux b ((q + (pyS "## " ++ H).length) + 1)).map
          (fun q2 => (q2.1, q2.2 ++ '\n' :: '\n' :: REST))) = [] from by
      rw [List.filterMap_eq_nil_iff]
      intro a ha
      obtain ⟨r, hr, rfl⟩ := List.mem_map.mp ha
      have hr0 : ∃ r0 ∈ lineStartSuffixesAux b 0, r.2 = r0.2 := by
        rw [lsAux_shift] at hr
        obtain ⟨r0, hr0, heq⟩ := List.mem_map.mp hr
        exact ⟨r0, hr0, by rw [← heq]⟩
      obtain ⟨r0, hr0, heq2⟩ := hr0
      have hnone := body_no_h2_suffix hb hbe r0 (List.mem_cons_of_mem _ hr0) ('\n' :: REST)
      dsimp only
      rw [heq2, hnone]
      rfl]
    rw [List.filterMap_cons]
    have hbody0 := body_no_h2_suffix hb hbe (0, b) (List.mem_cons_self _ _) ('\n' :: REST)
    simp only [hbody0, h2MatchS_nl, Option.map_none']
    rw [List.length_append, show (pyS "## ").length = 3 from rfl, List.length_append,
      show (['\n', '\n'] : Str).length = 2 from rfl]
    rw [show q + (3 + H.length) + 1 + b.length + 2 = q + (4 + H.length + (b.length + 2))
      from by omega]
    rw [List.nil_append]

set_option maxHeartbeats 1000000 in
theorem sec_matches_last (H b : Str) (q : Nat)
    (hHne : H ≠ []) (hHhead : isPySpace (H.headD ' ') = false)
    (hHnl : ∀ c ∈ H, c ≠ '\n') (hHrs : pyRstrip H = H)
    (hb : bodyOk b = true) :
    matchesAt (lineCands (pyS "## " ++ H ++ '\n' :: lastTail b) q) h2MatchS =
      [(q, q + (1 + (H.length + (if b = [] then 1 else 0)) + 2), H)] := by
  by_cases hbe : b = []
  · subst hbe
    rw [if_pos rfl, show lastTail ([] : Str) = [] from rfl]
    have hm0 : h2MatchS ((pyS "## " ++ H) ++ ['\n']) = some (1 + (H.length + 1) + 2, H) := by
      rw [show (pyS "## " ++ H) ++ ['\n'] = pyS "## " ++ (H ++ '\n' :: []) from by simp]
      rw [h2MatchS_heading [] hHne hHhead hHnl hHrs]
      rw [tailEndOffset_nl_end]
    unfold lineCands matchesAt
    rw [show pyS "## " ++ H ++ ('\n' :: ([] : Str)) = (pyS "## " ++ H) ++ ['\n'] from rfl]
    rw [lsAux_append, lsAux_hash_head H hHnl, List.map_nil, List.nil_append]
    rw [show lineStartSuffixesAux (['\n'] : Str) (q + (pyS "## " ++ H).length) =
      [(q + (pyS "## " ++ H).length + 1, [])] from by
        rw [lineStartSuffixesAux, if_pos rfl]
        rfl]
    rw [List.filterMap_cons, List.filterMap_cons]
    simp only [hm0, Option.map_some', show h2MatchS [] = none from rfl, Option.map_none']
    rfl
  · rw [if_neg hbe, show lastTail b = b ++ ['\n'] from by rw [lastTail, if_neg hbe]]
    obtain ⟨-, -, hfl, -⟩ := bodyOk_parts hb hbe
    obtain ⟨htw1, htw2⟩ := takeWhile_ws_line hfl
    have hm0 : h2MatchS ((pyS "## " ++ H) ++ '\n' :: (b ++ ['\n'])) =
        some (1 + (H.length + 0) + 2, H) := by
      rw [show (pyS "## " ++ H) ++ '\n' :: (b ++ ['\n']) =
        pyS "## " ++ (H ++ '\n' :: (b ++ ['\n'])) from by simp]
      rw [h2MatchS_heading (b ++ ['\n']) hHne hHhead hHnl hHrs]
      rw [tailEndOffset_cons_body
        (show ∀ c ∈ (b ++ ['\n']).takeWhile isPySpace, c ≠ '\n' from by
          rw [show b ++ ['\n'] = b ++ '\n' :: [] from rfl, takeWhile_append_stop _ htw2]
          exact htw1)
        (show ((b ++ ['\n']).takeWhile isPySpace).length < (b ++ ['\n']).length from by
          rw [show b ++ ['\n'] = b ++ '\n' :: [] from rfl, takeWhile_append_stop _ htw2,
            List.length_append]
          omega)]
    unfold lineCands matchesAt
    rw [show pyS "## " ++ H ++ '\n' :: (b ++ ['\n']) =
      (pyS "## " ++ H) ++ '\n' :: (b ++ ['\n']) from rfl]
    rw [lsAux_append, lsAux_hash_head H hHnl, List.map_nil, List.nil_append]
    rw [lineStartSuffixesAux, if_pos rfl]
    rw [lsAux_append]
    rw [show lineStartSuffixesAux (['\n'] : Str)
        ((q + (pyS "## " ++ H).length + 1) + b.length) =
      [((q + (pyS "## " ++ H).length + 1) + b.length + 1, [])] from by
        rw [lineStartSuffixesAux, if_pos rfl]
        rfl]
    rw [List.filterMap_cons]
    simp only [hm0, Option.map_some']
    rw [List.filterMap_cons]
    have hbody0 := body_no_h2_suffix hb hbe (0, b) (List.mem_cons_self _ _) []
    rw [show b ++ '\n' :: ([] : Str) = b ++ ['\n'] from rfl] at hbody0
    simp only [hbody0, Option.map_none']
    rw [List.filterMap_append]
    rw [show List.filterMap
        (fun c => (h2MatchS c.2).map (fun r => (c.1, c.1 + r.1, r.2)))
        ((lineStartSuffixesAux b (q + (pyS "## " ++ H).length + 1)).map
          (fun q2 => (q2.1, q2.2 ++ ['\n']))) = [] from by
      rw [List.filterMap_eq_nil_iff]
      intro a ha
      obtain ⟨r, hr, rfl⟩ := List.mem_map.mp ha
      have hr0 : ∃ r0 ∈ lineStartSuffixesAux b 0, r.2 = r0.2 := by
        rw [lsAux_shift] at hr
        obtain ⟨r0, hr0, heq⟩ := List.mem_map.mp hr
        exact ⟨r0, hr0, by rw [← heq]⟩
      obtain ⟨r0, hr0, heq2⟩ := hr0
      have hnone := body_no_h2_suffix hb hbe r0 (List.mem_cons_of_mem _ hr0) []
      dsimp only
      rw [heq2, show r0.2 ++ ['\n'] = r0.2 ++ '\n' :: [] from rfl, hnone]
      rfl]
    rw [show List.filterMap
        (fun c => (h2MatchS c.2).map (fun r => (c.1, c.1 + r.1, r.2)))
        [((q + (pyS "## " ++ H).length + 1) + b.length + 1, ([] : Str))] = [] from by
      rw [List.filterMap_cons]
      simp only [show h2MatchS [] = none from rfl, Option.map_none']
      rfl]
    rfl

theorem matchesAt_cons_none {α : Type} {m : Str → Option (Nat × α)} {c : Nat × Str}
    {rest : List (Nat × Str)} (h : m c.2 = none) :
    matchesAt (c :: rest) m = matchesAt rest m := by
  unfold matchesAt
  rw [List.filterMap_cons_none]
  rw [h]
  rfl

set_option maxHeartbeats 1000000 in
theorem h2Find_docOf (t b1 b2 b3 : Str)
    (htne : t ≠ []) (htnl : ∀ c ∈ t, c ≠ '\n')
    (hb1 : bodyOk b1 = true) (hb2 : bodyOk b2 = true) (hb3 : bodyOk b3 = true) :
    h2Find (docOf t b1 b2 b3) =
      [(t.length + 4,
        t.length + 4 + (1 + (heading1txt.length + (if b1 = [] then 1 else 0)) + 2),
        heading1txt),
       (t.length + 4 + (4 + heading1txt.length + (midTail b1).length),
        t.length + 4 + (4 + heading1txt.length + (midTail b1).length) +
          (1 + (heading2txt.length + (if b2 = [] then 1 else 0)) + 2),
        heading2txt),
       (t.length + 4 + (4 + heading1txt.length + (midTail b1).length) +
          (4 + heading2txt.length + (midTail b2).length),
        t.length + 4 + (4 + heading1txt.length + (midTail b1).length) +
          (4 + heading2txt.length + (midTail b2).length) +
          (1 + (heading3txt.length + (if b3 = [] then 1 else 0)) + 2),
        heading3txt)] := by
  unfold h2Find
  rw [show lineStartSuffixes (docOf t b1 b2 b3) = lineCands (docOf t b1 b2 b3) 0 from rfl]
  rw [show lineCands (docOf t b1 b2 b3) 0 =
      (0, docOf t b1 b2 b3) ::
      ((pyS "# " ++ t).length + 1, '\n' :: sfx1 b1 b2 b3) ::
      lineCands (sfx1 b1 b2 b3) ((pyS "# " ++ t).length + 2) from by
    unfold lineCands
    rw [show docOf t b1 b2 b3 = (pyS "# " ++ t) ++ '\n' :: '\n' :: sfx1 b1 b2 b3 from rfl]
    rw [lsAux_append]
    rw [show lineStartSuffixesAux (pyS "# " ++ t) 0 = [] from by
      rw [lsAux_append, lsAux_no_nl htnl, show lineStartSuffixesAux (pyS "# ") 0 = []
        from rfl]
      rfl]
    rw [List.map_nil, List.nil_append, lsAux_two_nl]
    simp only [Nat.zero_add]]
  rw [matchesAt_cons_none (show h2MatchS (docOf t b1 b2 b3) = none from
    h2MatchS_none_of_take2 (by
      rw [show (docOf t b1 b2 b3).take 2 = ['#', ' '] from rfl]
      decide))]
  rw [matchesAt_cons_none (h2MatchS_nl (sfx1 b1 b2 b3))]
  rw [show (pyS "# " ++ t).length + 2 = t.length + 4 from by
    rw [List.length_append, show (pyS "# ").length = 2 from rfl]
    omega]
  rw [show sfx1 b1 b2 b3 =
    pyS "## " ++ heading1txt ++ '\n' :: (midTail b1 ++ sfx2 b2 b3) from rfl]
  rw [sec_matches_mid heading1txt b1 (sfx2 b2 b3) (t.length + 4)
    (by decide) (by decide) (by decide) (by decide) hb1
    (show sfx2 b2 b3 ≠ [] from ne_nil_left (by decide))
    (show isPySpace ((sfx2 b2 b3).headD ' ') = false from rfl)]
  rw [show sfx2 b2 b3 =
    pyS "## " ++ heading2txt ++ '\n' :: (midTail b2 ++ sfx3 b3) from rfl]
  rw [sec_matches_mid heading2txt b2 (sfx3 b3)
    (t.length + 4 + (4 + heading1txt.length + (midTail b1).length))
    (by decide) (by decide) (by decide) (by decide) hb2
    (show sfx3 b3 ≠ [] from ne_nil_left (by decide))
    (show isPySpace ((sfx3 b3).headD ' ') = false from rfl)]
  rw [show sfx3 b3 = pyS "## " ++ heading3txt ++ '\n' :: lastTail b3 from rfl]
  rw [sec_matches_last heading3txt b3
    (t.length + 4 + (4 + heading1txt.length + (midTail b1).length) +
      (4 + heading2txt.length + (midTail b2).length))
    (by decide) (by decide) (by decide) (by decide) hb3]
  rw [selectNonOverlapping, if_pos (Nat.zero_le _)]
  rw [selectNonOverlapping]
  rw [if_pos (show
      ((t.length + 4,
        t.length + 4 + (1 + (heading1txt.length + (if b1 = [] then 1 else 0)) + 2),
        heading1txt) : Nat × Nat × Str).2.1 ≤
      t.length + 4 + (4 + heading1txt.length + (midTail b1).length) from by
    by_cases h : b1 = [] <;> simp [midTail, h, List.length_append] <;> omega)]
  rw [selectNonOverlapping]
  rw [if_pos (show
      ((t.length + 4 + (4 + heading1txt.length + (midTail b1).length),
        t.length + 4 + (4 + heading1txt.length + (midTail b1).length) +
          (1 + (heading2txt.length + (if b2 = [] then 1 else 0)) + 2),
        heading2txt) : Nat × Nat × Str).2.1 ≤
      t.length + 4 + (4 + heading1txt.length + (midTail b1).length) +
        (4 + heading2txt.length + (midTail b2).length) from by
    by_cases h : b2 = [] <;> simp [midTail, h, List.length_append] <;> omega)]
  rw [selectNonOverlapping]

theorem drop_append_plus (A X : Str) (k : Nat) :
    (A ++ X).drop (A.length + k) = X.drop k := by
  rw [← List.drop_drop, List.drop_left]

theorem stripNl_slice_mid (PRE b R : Str) (hb : bodyOk b = true) (a e : Nat)
    (ha : a = PRE.length + (if b = [] then 1 else 0))
    (he : e = PRE.length + 1 + (midTail b).length) :
    pyStripNl (slice (PRE ++ '\n' :: (midTail b ++ R)) a e) = b := by
  unfold slice
  by_cases hbe : b = []
  · subst hbe
    rw [if_pos rfl] at ha
    rw [show midTail ([] : Str) = ['\n'] from rfl] at he ⊢
    rw [ha, he]
    rw [show PRE ++ '\n' :: ((['\n'] : Str) ++ R) = (PRE ++ ['\n']) ++ ('\n' :: R) from by
      simp]
    rw [show PRE.length + 1 = (PRE ++ ['\n']).length + 0 from by simp]
    rw [drop_append_plus, List.drop_zero]
    rw [show (PRE ++ ['\n']).length + 0 + (['\n'] : Str).length -
      ((PRE ++ ['\n']).length + 0) = 1 from by simp]
    rw [show ('\n' :: R).take 1 = ['\n'] from rfl]
    rfl
  · rw [if_neg hbe] at ha
    rw [show midTail b = b ++ ['\n', '\n'] from by rw [midTail, if_neg hbe]] at he ⊢
    rw [ha, he]
    rw [drop_append_plus, List.drop_zero]
    rw [show PRE.length + 1 + (b ++ ['\n', '\n']).length - (PRE.length + 0) =
      1 + (b.length + 2) from by rw [List.length_append]; simp; omega]
    rw [show 1 + (b.length + 2) = (b.length + 2) + 1 from by omega, List.take_succ_cons]
    rw [show b.length + 2 = (b ++ ['\n', '\n']).length from by rw [List.length_append]; rfl]
    rw [List.take_left]
    exact pyStripNl_wrap hbe (bodyOk_head_ne_nl hb hbe) (bodyOk_last_ne_nl hb hbe)
      (by
        intro c hc
        rcases List.mem_cons.mp hc with rfl | hc2
        · rfl
        · rcases List.mem_cons.mp hc2 with rfl | hc3
          · rfl
          · cases hc3)

theorem stripNl_slice_last (PRE b : Str) (hb : bodyOk b = true) (a : Nat)
    (ha : a = PRE.length + (if b = [] then 1 else 0)) :
    pyStripNl (slice (PRE ++ '\n' :: lastTail b) a (PRE ++ '\n' :: lastTail b).length) = b := by
  unfold slice
  by_cases hbe : b = []
  · subst hbe
    rw [if_pos rfl] at ha
    rw [show lastTail ([] : Str) = [] from rfl]
    rw [ha]
    rw [show PRE ++ ('\n' :: ([] : Str)) = PRE ++ ['\n'] from rfl]
    rw [show (PRE ++ ['\n']).length = PRE.length + 1 from by rw [List.length_append]; rfl]
    rw [Nat.sub_self, List.take_zero]
    rfl
  · rw [if_neg hbe] at ha
    rw [show lastTail b = b ++ ['\n'] from by rw [lastTail, if_neg hbe]]
    rw [ha]
    rw [drop_append_plus, List.drop_zero]
    rw [show (PRE ++ '\n' :: (b ++ ['\n'])).length - (PRE.length + 0) =
      ('\n' :: (b ++ ['\n'])).length from by
        rw [List.length_append]
        simp]
    rw [List.take_length]
    exact pyStripNl_wrap hbe (bodyOk_head_ne_nl hb hbe) (bodyOk_last_ne_nl hb hbe)
      (by
        intro c hc
        rcases List.mem_cons.mp hc with rfl | hc2
        · rfl
        · cases hc2)

theorem matchesAt_cons_some {α : Type} {m : Str → Option (Nat × α)} {c : Nat × Str}
    {rest : List (Nat × Str)} {r : Nat × α} (h : m c.2 = some r) :
    matchesAt (c :: rest) m = (c.1, c.1 + r.1, r.2) :: matchesAt rest m := by
  unfold matchesAt
  apply List.filterMap_cons_some
  dsimp only
  rw [h]
  rfl

theorem titleFind_docOf (t b1 b2 b3 : Str)
    (htne : t ≠ []) (hthead : isPySpace (t.headD ' ') = false)
    (htnl : ∀ c ∈ t, c ≠ '\n') (htrs : pyRstrip t = t) :
    titleFind (docOf t b1 b2 b3) = some (0, t.length + 3, t) := by
  have hT : titleMatchS (docOf t b1 b2 b3) =
      some (0 + 1 + (1 + (t.length + 1)), t) := by
    rw [show docOf t b1 b2 b3 = '#' :: ' ' :: (t ++ '\n' :: ('\n' :: sfx1 b1 b2 b3))
      from rfl]
    rw [titleMatchS_title ('\n' :: sfx1 b1 b2 b3) htne hthead htnl htrs]
    rw [tailEndOffset_two_nl
      (show isPySpace ((sfx1 b1 b2 b3).headD ' ') = false from rfl)
      (show sfx1 b1 b2 b3 ≠ [] from ne_nil_left (by decide))]
  unfold titleFind
  rw [show lineStartSuffixes (docOf t b1 b2 b3) = lineCands (docOf t b1 b2 b3) 0 from rfl]
  unfold lineCands
  rw [matchesAt_cons_some hT]
  rw [show (0 : Nat) + (0 + 1 + (1 + (t.length + 1))) = t.length + 3 from by omega]
  rfl

set_option maxHeartbeats 2000000 in
theorem from_markdown_docOf (t b1 b2 b3 fb : Str)
    (htne : t ≠ []) (hthead : isPySpace (t.headD ' ') = false)
    (htnl : ∀ c ∈ t, c ≠ '\n') (htrs : pyRstrip t = t)
    (hb1 : bodyOk b1 = true) (hb2 : bodyOk b2 = true) (hb3 : bodyOk b3 = true)
    (hcr : ∀ c ∈ docOf t b1 b2 b3, c ≠ '\r') :
    from_markdown (docOf t b1 b2 b3) fb =
      { title := pyStrip t, block1 := b1, block2 := b2, block3 := b3,
        extras := [], raw_markdown := docOf t b1 b2 b3, structured := true } := by
  unfold from_markdown
  rw [normalizeNewlines_id hcr]
  dsimp only
  rw [titleFind_docOf t b1 b2 b3 htne hthead htnl htrs]
  rw [h2Find_docOf t b1 b2 b3 htne htnl hb1 hb2 hb3]
  dsimp only
  have hslice1 : pyStripNl (slice (docOf t b1 b2 b3)
      (t.length + 4 + (1 + (heading1txt.length + (if b1 = [] then 1 else 0)) + 2))
      (t.length + 4 + (4 + heading1txt.length + (midTail b1).length))) = b1 := by
    rw [show docOf t b1 b2 b3 =
      ((pyS "# " ++ t) ++ '\n' :: '\n' :: (pyS "## " ++ heading1txt)) ++
        '\n' :: (midTail b1 ++ sfx2 b2 b3) from by
        simp [docOf, sfx1]]
    apply stripNl_slice_mid _ _ _ hb1
    · simp [List.length_append, show (pyS "# ").length = 2 from rfl,
        show (pyS "## ").length = 3 from rfl, show heading1txt.length = 28 from by decide]
      omega
    · simp [List.length_append, show (pyS "# ").length = 2 from rfl,
        show (pyS "## ").length = 3 from rfl, show heading1txt.length = 28 from by decide]
      omega
  have hslice2 : pyStripNl (slice (docOf t b1 b2 b3)
      (t.length + 4 + (4 + heading1txt.length + (midTail b1).length) +
        (1 + (heading2txt.length + (if b2 = [] then 1 else 0)) + 2))
      (t.length + 4 + (4 + heading1txt.length + (midTail b1).length) +
        (4 + heading2txt.length + (midTail b2).length))) = b2 := by
    rw [show docOf t b1 b2 b3 =
      ((pyS "# " ++ t) ++ '\n' :: '\n' :: ((pyS "## " ++ heading1txt) ++
        '\n' :: midTail b1 ++ (pyS "## " ++ heading2txt))) ++
        '\n' :: (midTail b2 ++ sfx3 b3) from by
        simp [docOf, sfx1, sfx2]]
    apply stripNl_slice_mid _ _ _ hb2
    · simp [List.length_append, show (pyS "# ").length = 2 from rfl,
        show (pyS "## ").length = 3 from rfl, show heading1txt.length = 28 from by decide,
        show heading2txt.length = 40 from by decide]
      omega
    · simp [List.length_append, show (pyS "# ").length = 2 from rfl,
        show (pyS "## ").length = 3 from rfl, show heading1txt.length = 28 from by decide,
        show heading2txt.length = 40 from by decide]
      omega
  have hslice3 : pyStripNl (slice (docOf t b1 b2 b3)
      (t.length + 4 + (4 + heading1txt.length + (midTail b1).length) +
        (4 + heading2txt.length + (midTail b2).length) +
        (1 + (heading3txt.length + (if b3 = [] then 1 else 0)) + 2))
      (docOf t b1 b2 b3).length) = b3 := by
    rw [show docOf t b1 b2 b3 =
      ((pyS "# " ++ t) ++ '\n' :: '\n' :: ((pyS "## " ++ heading1txt) ++
        '\n' :: midTail b1 ++ ((pyS "## " ++ heading2txt) ++
          '\n' :: midTail b2 ++ (pyS "## " ++ heading3txt)))) ++
        '\n' :: lastTail b3 from by
        simp [docOf, sfx1, sfx2, sfx3]]
    apply stripNl_slice_last _ _ hb3
    simp [List.length_append, show (pyS "# ").length = 2 from rfl,
      show (pyS "## ").length = 3 from rfl, show heading1txt.length = 28 from by decide,
      show heading2txt.length = 40 from by decide,
      show heading3txt.length = 28 from by decide]
    omega
  have hpre : slice (docOf t b1 b2 b3) (t.length + 3) (t.length + 4) = ['\n'] := by
    unfold slice
    rw [show docOf t b1 b2 b3 = (pyS "# " ++ t) ++ ('\n' :: ('\n' :: sfx1 b1 b2 b3))
      from rfl]
    rw [show t.length + 3 = (pyS "# " ++ t).length + 1 from by
      rw [List.length_append, show (pyS "# ").length = 2 from rfl]
      omega]
    rw [drop_append_plus]
    rw [show ('\n' :: ('\n' :: sfx1 b1 b2 b3)).drop 1 = '\n' :: sfx1 b1 b2 b3 from rfl]
    rw [show t.length + 4 - ((pyS "# " ++ t).length + 1) = 1 from by
      rw [List.length_append, show (pyS "# ").length = 2 from rfl]
      omega]
    rw [show ('\n' :: sfx1 b1 b2 b3).take 1 = ['\n'] from rfl]
  rw [hpre]
  rw [show pyStrip (['\n'] : Str) = [] from rfl]
  rw [if_pos (show List.isEmpty ([] : Str) = true from rfl)]
  rw [h2Loop.eq_def]
  dsimp only
  rw [show pyStrip heading1txt = heading1txt from by decide]
  rw [show canonicalKey? (normalizeHeading heading1txt) = some 1 from by decide]
  dsimp only
  rw [if_pos (show (List.lookup 1 ([] : List (Nat × Str))).isNone = true from rfl)]
  rw [hslice1]
  simp only [List.nil_append]
  rw [h2Loop.eq_def]
  dsimp only
  rw [show pyStrip heading2txt = heading2txt from by decide]
  rw [show canonicalKey? (normalizeHeading heading2txt) = some 2 from by decide]
  dsimp only
  rw [if_pos (show (List.lookup 2 [(1, b1)]).isNone = true from rfl)]
  rw [hslice2]
  simp only [List.cons_append, List.nil_append]
  rw [h2Loop.eq_def]
  dsimp only
  rw [show pyStrip heading3txt = heading3txt from by decide]
  rw [show canonicalKey? (normalizeHeading heading3txt) = some 3 from by decide]
  dsimp only
  rw [if_pos (show (List.lookup 3 [(1, b1), (2, b2)]).isNone = true from rfl)]
  rw [hslice3]
  simp only [List.cons_append, List.nil_append]
  rw [h2Loop.eq_def]
  dsimp only
  rw [show orderedCheck [normalizeHeading heading1txt, normalizeHeading heading2txt,
    normalizeHeading heading3txt] = true from by decide]
  rw [show (List.lookup 1 [(1, b1), (2, b2), (3, b3)]).isSome = true from rfl]
  rw [show (List.lookup 2 [(1, b1), (2, b2), (3, b3)]).isSome = true from rfl]
  rw [show (List.lookup 3 [(1, b1), (2, b2), (3, b3)]).isSome = true from rfl]
  rw [if_pos (show ((true && true && true) && true) = true from rfl)]
  rw [show (List.lookup 1 [(1, b1), (2, b2), (3, b3)]).getD [] = b1 from rfl]
  rw [show (List.lookup 2 [(1, b1), (2, b2), (3, b3)]).getD [] = b2 from rfl]
  rw [show (List.lookup 3 [(1, b1), (2, b2), (3, b3)]).getD [] = b3 from rfl]
  rfl

theorem bodyOk_noCR {b : Str} (h : bodyOk b = true) : ∀ c ∈ b, c ≠ '\r' := by
  by_cases hbe : b = []
  · subst hbe
    intro c hc
    cases hc
  · exact (bodyOk_parts h hbe).1

theorem midTail_noCR {b : Str} (h : bodyOk b = true) : ∀ c ∈ midTail b, c ≠ '\r' := by
  intro c hc
  unfold midTail at hc
  by_cases hbe : b = []
  · rw [if_pos hbe] at hc
    rcases List.mem_cons.mp hc with rfl | hc2
    · decide
    · cases hc2
  · rw [if_neg hbe] at hc
    rcases List.mem_append.mp hc with hc2 | hc2
    · exact bodyOk_noCR h c hc2
    · rcases List.mem_cons.mp hc2 with rfl | hc3
      · decide
      · rcases List.mem_cons.mp hc3 with rfl | hc4
        · decide
        · cases hc4

theorem lastTail_noCR {b : Str} (h : bodyOk b = true) : ∀ c ∈ lastTail b, c ≠ '\r' := by
  intro c hc
  unfold lastTail at hc
  by_cases hbe : b = []
  · rw [if_pos hbe] at hc
    cases hc
  · rw [if_neg hbe] at hc
    rcases List.mem_append.mp hc with hc2 | hc2
    · exact bodyOk_noCR h c hc2
    · rcases List.mem_cons.mp hc2 with rfl | hc3
      · decide
      · cases hc3

theorem docOf_noCR {t b1 b2 b3 : Str} (htcr : ∀ c ∈ t, c ≠ '\r')
    (hb1 : bodyOk b1 = true) (hb2 : bodyOk b2 = true) (hb3 : bodyOk b3 = true) :
    ∀ c ∈ docOf t b1 b2 b3, c ≠ '\r' := by
  show ∀ c ∈ (pyS "# " ++ t) ++ '\n' :: '\n' :: sfx1 b1 b2 b3, c ≠ '\r'
  apply forall_mem_append
  · apply forall_mem_append
    · decide
    · exact htcr
  · apply forall_mem_cons_c
    · decide
    apply forall_mem_cons_c
    · decide
    show ∀ c ∈ (pyS "## " ++ heading1txt) ++ '\n' :: (midTail b1 ++ sfx2 b2 b3), c ≠ '\r'
    apply forall_mem_append
    · decide
    · apply forall_mem_cons_c
      · decide
      apply forall_mem_append
      · exact midTail_noCR hb1
      · show ∀ c ∈ (pyS "## " ++ heading2txt) ++ '\n' :: (midTail b2 ++ sfx3 b3), c ≠ '\r'
        apply forall_mem_append
        · decide
        · apply forall_mem_cons_c
          · decide
          apply forall_mem_append
          · exact midTail_noCR hb2
          · show ∀ c ∈ (pyS "## " ++ heading3txt) ++ '\n' :: lastTail b3, c ≠ '\r'
            apply forall_mem_append
            · decide
            · apply forall_mem_cons_c
              · decide
              exact lastTail_noCR hb3

/-! ## Claim theorems -/

/-- C1: for every dialect (Range/Zone, Transition-Action,
Transition-Meaning) and every input string, the notation parser returns a
pair with exactly one non-null component: accepted inputs yield a
non-empty sentence and a null error, rejected inputs a null sentence and
a non-empty error; the (total) parser never raises. -/
theorem parseNotationTotal (s : Str) :
    wellFormedResult (notation_to_text s) ∧
    wellFormedResult (transition_notation_to_text s) ∧
    wellFormedResult (transition_meaning_notation_to_text s) :=
  ⟨wf_notation_to_text s, wf_transition s, wf_meaning s⟩

/-- C6: each dialect enforces its exact count of non-empty trimmed lines
before any other check (2 for Range/Zone, 1 for each Transition dialect):
every input with a different count gets the error naming the expected
line count. -/
theorem lineCountFirst (s : Str) :
    ((nonEmptyLines s).length ≠ 2 →
      notation_to_text s = (none, some (pyS "Нотация должна содержать ровно 2 непустые строки."))) ∧
    ((nonEmptyLines s).length ≠ 1 →
      transition_notation_to_text s =
        (none, some (pyS "Нотация должна содержать ровно 1 непустую строку."))) ∧
    ((nonEmptyLines s).length ≠ 1 →
      transition_meaning_notation_to_text s =
        (none, some (pyS "Notation must contain exactly one non-empty line."))) := by
  refine ⟨?_, ?_, ?_⟩ <;> intro h
  · rcases hl : nonEmptyLines s with _ | ⟨a, _ | ⟨b, _ | ⟨c, l⟩⟩⟩
    · simp [notation_to_text, hl]
    · simp [notation_to_text, hl]
    · exact absurd (by rw [hl]; rfl) h
    · simp [notation_to_text, hl]
  · rcases hl : nonEmptyLines s with _ | ⟨a, _ | l⟩
    · simp [transition_notation_to_text, hl]
    · exact absurd (by rw [hl]; rfl) h
    · simp [transition_notation_to_text, hl]
  · rcases hl : nonEmptyLines s with _ | ⟨a, _ | l⟩
    · simp [transition_meaning_notation_to_text, hl]
    · exact absurd (by rw [hl]; rfl) h
    · simp [transition_meaning_notation_to_text, hl]

/-- C6 witness at a three-line input. -/
theorem lineCountFirst_witness :
    (nonEmptyLines (pyS "a\nb\nc")).length ≠ 2 ∧
    notation_to_text (pyS "a\nb\nc") =
      (none, some (pyS "Нотация должна содержать ровно 2 непустые строки.")) ∧
    transition_notation_to_text (pyS "a\nb\nc") =
      (none, some (pyS "Нотация должна содержать ровно 1 непустую строку.")) ∧
    transition_meaning_notation_to_text (pyS "a\nb\nc") =
      (none, some (pyS "Notation must contain exactly one non-empty line.")) := by
  have h := lineCountFirst (pyS "a\nb\nc")
  exact ⟨by decide, h.1 (by decide), h.2.1 (by decide), h.2.2 (by decide)⟩

/-- C8: `normalize_raw` always produces a structured plan whose first
section is the newline-trimmed raw text and whose other sections and
extras are empty. -/
theorem normalizeRawSpec (md t : Str) :
    (normalize_raw md t).structured = true ∧ (normalize_raw md t).block1 = pyStripNl md ∧
    (normalize_raw md t).block2 = [] ∧ (normalize_raw md t).block3 = [] ∧
    (normalize_raw md t).extras = [] :=
  ⟨rfl, rfl, rfl, rfl, rfl⟩

/-- C9: `to_markdown` never reads `raw_markdown` or `structured`: plans
agreeing on title, the three section bodies and extras serialize
identically. -/
theorem toMarkdownIgnoresRawFields (p q : TradingPlan) (ht : p.title = q.title)
    (h1 : p.block1 = q.block1) (h2 : p.block2 = q.block2) (h3 : p.block3 = q.block3)
    (he : p.extras = q.extras) : to_markdown p = to_markdown q := by
  unfold to_markdown
  rw [ht, h1, h2, h3, he]

/-- C9 witness: a raw-mode plan with raw content serializes exactly like
its structured counterpart without it. -/
theorem toMarkdownIgnoresRawFields_witness :
    to_markdown
      { title := pyS "T", block1 := pyS "a", block2 := pyS "b", block3 := pyS "c",
        extras := pyS "e", raw_markdown := pyS "RAW MODE CONTENT", structured := false } =
    to_markdown
      { title := pyS "T", block1 := pyS "a", block2 := pyS "b", block3 := pyS "c",
        extras := pyS "e", raw_markdown := [], structured := true } :=
  toMarkdownIgnoresRawFields _ _ rfl rfl rfl rfl rfl

/-- C5: in the Transition-Action dialect, for an input whose single
non-empty line tokenizes (after the `NOT`-prefix rewrite) to a token list
whose action is GET or NOT GET, parsing succeeds if and only if the
primary element (sign, timeframe, element) is followed by exactly one
complete zone clause `ACTUAL/PREV sign TF DR zone` and nothing else:
a missing zone clause or any trailing tokens yield an error. -/
theorem getRequiresZoneClause (s line : Str) (ts : List Str) (i0 : Nat) (a : Str)
    (hl : nonEmptyLines s = [line])
    (ht : ts = if pyStrip (rewriteNotPrefix line) = [] then []
          else wsTokens (pyStrip (rewriteNotPrefix line)))
    (hact : (pyUpper (ts.getD 0 []) = pyS "GET" ∧ a = pyS "GET" ∧ i0 = 1) ∨
            (pyUpper (ts.getD 0 []) = pyS "NOT" ∧ pyUpper (ts.getD 1 []) = pyS "GET" ∧
             2 ≤ ts.length ∧ a = pyS "NOT GET" ∧ i0 = 2)) :
    (transition_notation_to_text s).2 = none ↔ getShapeSpec ts i0 := by
  unfold transition_notation_to_text
  rw [hl]
  dsimp only
  rw [← ht]
  rcases hact with ⟨hfirst, ha, hi⟩ | ⟨hnot, hsecond, hlen, ha, hi⟩
  · subst hi
    cases ts with
    | nil => exact absurd hfirst (by decide)
    | cons t0 tl =>
      unfold transitionTokens
      dsimp only
      have hf : pyUpper t0 = pyS "GET" := hfirst
      rw [hf]
      rw [if_neg (by decide : ¬ pyS "GET" = pyS "NOT"),
          if_neg (by decide : ¬ pyS "GET" = pyS "CREATE"),
          if_pos rfl]
      exact trAfterAction_get_shape (pyS "GET") (Or.inl rfl) 1 (t0 :: tl)
  · subst hi
    cases ts with
    | nil => exact absurd hnot (by decide)
    | cons t0 tl =>
      unfold transitionTokens
      dsimp only
      have hf : pyUpper t0 = pyS "NOT" := hnot
      rw [hf]
      rw [if_pos rfl]
      rw [if_neg (by omega : ¬ (t0 :: tl).length < 2)]
      rw [hsecond]
      rw [if_neg (by decide : ¬ pyS "GET" = pyS "CREATE"), if_pos rfl]
      exact trAfterAction_get_shape (pyS "NOT GET") (Or.inr rfl) 2 (t0 :: tl)

/-- C5 witness: `GET + H1 OB ACTUAL - H4 DR Premium` has the required
shape, and the parser accepts it. -/
theorem getRequiresZoneClause_witness :
    (transition_notation_to_text (pyS "GET + H1 OB ACTUAL - H4 DR Premium")).2 = none := by
  exact (getRequiresZoneClause (pyS "GET + H1 OB ACTUAL - H4 DR Premium")
      (pyS "GET + H1 OB ACTUAL - H4 DR Premium")
      (wsTokens (pyS "GET + H1 OB ACTUAL - H4 DR Premium")) 1 (pyS "GET")
      (by decide) (by decide) (Or.inl ⟨by decide, rfl, rfl⟩)).mpr
    (by unfold getShapeSpec; decide)

/-- C4: in the Transition-Action dialect, a CREATE action with a WITH
clause (`CREATE sign TF el WITH sign TF el ACTUAL/PREV sign TF DR zone`)
and no trailing BREAK/NOT BREAK marker is rejected with the error naming
the required BREAK/NOT BREAK marker. -/
theorem createWithRequiresBreak
    (sg1 tf1 el1 wt sg2 tf2 el2 rk sg3 tf3 dr zn : Str)
    (htok : ∀ t ∈ [pyS "CREATE", sg1, tf1, el1, wt, sg2, tf2, el2, rk, sg3, tf3, dr, zn],
        tokenOk t = true)
    (hs1 : isSignToken sg1 = true) (ht1 : isTfToken tf1 = true)
    (hw : pyUpper wt = pyS "WITH")
    (hs2 : isSignToken sg2 = true) (ht2 : isTfToken tf2 = true)
    (hrk : isApToken rk = true)
    (hs3 : isSignToken sg3 = true) (ht3 : isTfToken tf3 = true)
    (hdr : pyUpper dr = pyS "DR") (hzn : isZoneToken zn = true) :
    transition_notation_to_text
        (joinTokens [pyS "CREATE", sg1, tf1, el1, wt, sg2, tf2, el2, rk, sg3, tf3, dr, zn]) =
      (none, some (pyS "После WITH блока для CREATE укажите BREAK или NOT BREAK.")) := by
  have hne : ([pyS "CREATE", sg1, tf1, el1, wt, sg2, tf2, el2, rk, sg3, tf3, dr, zn] :
      List Str) ≠ [] := by simp
  unfold transition_notation_to_text
  rw [nonEmptyLines_joinTokens htok hne]
  dsimp only
  rw [rewriteNotPrefix_id (by
    rw [joinTokens_take _ 4 (by decide)]
    decide)]
  rw [pyStrip_joinTokens htok hne]
  rw [if_neg (joinTokens_ne_nil htok hne)]
  rw [joinTokens_tokens htok hne]
  unfold transitionTokens
  dsimp only
  rw [if_neg (by decide : ¬ pyUpper (pyS "CREATE") = pyS "NOT"),
      if_pos (by decide : pyUpper (pyS "CREATE") = pyS "CREATE")]
  unfold trAfterAction
  have hpe : tr_parse_element
      [pyS "CREATE", sg1, tf1, el1, wt, sg2, tf2, el2, rk, sg3, tf3, dr, zn] 1 =
      (some (sg1, pyUpper tf1, el1), 4, none) := by
    unfold tr_parse_element
    simp [hs1, ht1]
  rw [hpe]
  dsimp only
  rw [if_neg (by decide : ¬ (pyS "CREATE" = pyS "GET" ∨ pyS "CREATE" = pyS "NOT GET"))]
  unfold trCreateFlow
  rw [if_neg (by
    rintro ⟨-, -, hap⟩
    simp only [List.getD_cons_succ, List.getD_cons_zero] at hap
    rw [isApToken, hw] at hap
    exact absurd hap (by decide))]
  unfold trWithStep
  rw [if_pos (by simp : (4 : Nat) <
      ([pyS "CREATE", sg1, tf1, el1, wt, sg2, tf2, el2, rk, sg3, tf3, dr, zn] :
        List Str).length)]
  rw [if_neg (by
    simp only [List.getD_cons_succ, List.getD_cons_zero, ne_eq, hw, not_true_eq_false,
      not_false_eq_true])]
  have hpe2 : tr_parse_element
      [pyS "CREATE", sg1, tf1, el1, wt, sg2, tf2, el2, rk, sg3, tf3, dr, zn] (4 + 1) =
      (some (sg2, pyUpper tf2, el2), 8, none) := by
    unfold tr_parse_element
    simp [hs2, ht2]
  rw [hpe2]
  dsimp only
  have hrk' : pyUpper rk = pyS "ACTUAL" ∨ pyUpper rk = pyS "PREV" := by
    simpa [isApToken] using hrk
  have hzn' : pyCasefold zn = pyS "premium" ∨ pyCasefold zn = pyS "equilibrium" ∨
      pyCasefold zn = pyS "discount" := by
    simpa [isZoneToken, or_assoc] using hzn
  have hpr : tr_parse_range
      [pyS "CREATE", sg1, tf1, el1, wt, sg2, tf2, el2, rk, sg3, tf3, dr, zn] 8 =
      (some (pyUpper rk, sg3, pyUpper tf3, normalizeZoneTr zn), 13, none) := by
    unfold tr_parse_range
    rcases hzn' with hzn' | hzn' | hzn' <;>
      simp [hrk', hs3, ht3, hdr, hzn']
  rw [hpr]
  dsimp only
  rw [if_pos (rfl : pyS "CREATE" = pyS "CREATE")]
  rw [if_pos (by simp :
      ([pyS "CREATE", sg1, tf1, el1, wt, sg2, tf2, el2, rk, sg3, tf3, dr, zn] :
        List Str).length ≤ 13)]

/-- C4 witness: Example 5, `CREATE + M5 FVG WITH - H1 OB PREV + D1 DR
Discount`, is rejected with the BREAK/NOT BREAK error. -/
theorem createWithRequiresBreak_witness :
    transition_notation_to_text (pyS "CREATE + M5 FVG WITH - H1 OB PREV + D1 DR Discount") =
      (none, some (pyS "После WITH блока для CREATE укажите BREAK или NOT BREAK.")) := by
  have h := createWithRequiresBreak (pyS "+") (pyS "M5") (pyS "FVG") (pyS "WITH") (pyS "-")
      (pyS "H1") (pyS "OB") (pyS "PREV") (pyS "+") (pyS "D1") (pyS "DR") (pyS "Discount")
      (by decide) (by decide) (by decide) (by decide) (by decide) (by decide) (by decide)
      (by decide) (by decide) (by decide) (by decide)
  have hj : joinTokens [pyS "CREATE", pyS "+", pyS "M5", pyS "FVG", pyS "WITH", pyS "-",
      pyS "H1", pyS "OB", pyS "PREV", pyS "+", pyS "D1", pyS "DR", pyS "Discount"] =
      pyS "CREATE + M5 FVG WITH - H1 OB PREV + D1 DR Discount" := by decide
  rw [hj] at h
  exact h

/-- C3 (corrected: the raw fallback keeps the newline-normalized input
text, not the verbatim original): `from_markdown` yields
`structured = true` iff all three canonical second-level headings are
found with their first occurrences in canonical order, and whenever that
fails the plan has `structured = false` with the newline-normalized
document as its raw markdown. -/
theorem structuredIffCanonicalOrder (md fb : Str) :
    ((from_markdown md fb).structured = true ↔
      canonicalInOrder (docHeadings md) = true) ∧
    ((from_markdown md fb).structured = false →
      (from_markdown md fb).raw_markdown = normalizeNewlines md) :=
  ⟨by rw [from_markdown_structured], fun _ => from_markdown_raw md fb⟩

/-- C3 witness: a document with no headings parses unstructured and keeps
the normalized text. -/
theorem structuredIffCanonicalOrder_witness :
    (from_markdown (pyS "x") (pyS "F")).raw_markdown = normalizeNewlines (pyS "x") :=
  (structuredIffCanonicalOrder (pyS "x") (pyS "F")).2 (by decide)

/-- C3 counterexample to the unamended claim: for the input `a CR b` the
unstructured plan's raw markdown is the newline-normalized text, which
differs from the original input. -/
theorem rawKeepsOriginal_cx :
    (from_markdown (pyS "a\rb") (pyS "F")).structured = false ∧
    ¬ (from_markdown (pyS "a\rb") (pyS "F")).raw_markdown = pyS "a\rb" := by decide

/-- C7 (corrected: one canonical heading is not enough for a structured
parse — the document needs all three canonical headings, in order, for
the extras to survive the round trip): a document with the three
canonical sections plus one non-canonical second-level heading parses
structured, keeps the non-canonical heading and its body verbatim in
`extras`, and the serialization contains them verbatim. -/
theorem extrasPreserved :
    (from_markdown (pyS "# План A\n\n## 1. Описание текущей ситуации\nБлок 1\n\n## Дополнительный раздел\nНужно сохранить.\n\n## 2. Описание сценариев перехода к сделкам\nБлок 2\n\n## 3. Описание сценариев сделок\nБлок 3")
        (pyS "F")).structured = true ∧
    (from_markdown (pyS "# План A\n\n## 1. Описание текущей ситуации\nБлок 1\n\n## Дополнительный раздел\nНужно сохранить.\n\n## 2. Описание сценариев перехода к сделкам\nБлок 2\n\n## 3. Описание сценариев сделок\nБлок 3")
        (pyS "F")).extras = pyS "## Дополнительный раздел\nНужно сохранить." ∧
    strContains
      (to_markdown (from_markdown (pyS "# План A\n\n## 1. Описание текущей ситуации\nБлок 1\n\n## Дополнительный раздел\nНужно сохранить.\n\n## 2. Описание сценариев перехода к сделкам\nБлок 2\n\n## 3. Описание сценариев сделок\nБлок 3")
        (pyS "F")))
      (pyS "## Дополнительный раздел\nНужно сохранить.") = true := by decide

/-- C7 counterexample to the unamended claim: a document with exactly one
canonical-matching heading plus one non-canonical heading parses with
`structured = false`, empty `extras`, and a serialization that omits the
non-canonical heading. -/
theorem extrasPreserved_cx :
    (from_markdown (pyS "## 1. Описание текущей ситуации\nA\n\n## Дополнительный раздел\nНужно сохранить.")
      (pyS "F")).extras = [] ∧
    strContains
      (to_markdown (from_markdown (pyS "## 1. Описание текущей ситуации\nA\n\n## Дополнительный раздел\nНужно сохранить.")
        (pyS "F")))
      (pyS "## Дополнительный раздел") = false := by decide

/-- C2 (corrected: the round trip reproduces the section bodies and
extras only for hygienic plans — single-line non-empty trimmed title,
bodies with no carriage returns, no trailing whitespace, a first line
holding a non-whitespace character, and no line beginning with `##`, and
empty extras; in general `from_markdown` re-normalizes bodies): parsing
the serialization of such a plan reproduces its three section bodies and
its extras. -/
theorem roundTripStructured (p : TradingPlan)
    (ht : titleOk p.title = true)
    (h1 : bodyOk p.block1 = true) (h2 : bodyOk p.block2 = true) (h3 : bodyOk p.block3 = true)
    (he : p.extras = []) (fb : Str) :
    (from_markdown (to_markdown p) fb).block1 = p.block1 ∧
    (from_markdown (to_markdown p) fb).block2 = p.block2 ∧
    (from_markdown (to_markdown p) fb).block3 = p.block3 ∧
    (from_markdown (to_markdown p) fb).extras = p.extras := by
  rw [titleOk] at ht
  have htitle : ∀ c ∈ p.title, c ≠ '\n' ∧ c ≠ '\r' := by
    intro c hc
    have h' := List.all_eq_true.mp ht c hc
    simpa using h'
  rw [to_markdown_docOf p h1 h2 h3 he]
  by_cases hE : (pyStrip p.title).isEmpty = true
  · rw [if_pos hE]
    rw [from_markdown_docOf (pyS "Без названия") p.block1 p.block2 p.block3 fb
      (by decide) (by decide) (by decide) (by decide) h1 h2 h3
      (docOf_noCR (by decide) h1 h2 h3)]
    exact ⟨rfl, rfl, rfl, he.symm⟩
  · rw [if_neg hE]
    have hne : pyStrip p.title ≠ [] := by
      intro hcon
      rw [hcon] at hE
      exact hE rfl
    obtain ⟨hhead, hrs⟩ := pyStrip_facts hne
    rw [from_markdown_docOf (pyStrip p.title) p.block1 p.block2 p.block3 fb
      hne hhead (fun c hc => (htitle c (mem_pyStrip hc)).1) hrs h1 h2 h3
      (docOf_noCR (fun c hc => (htitle c (mem_pyStrip hc)).2) h1 h2 h3)]
    exact ⟨rfl, rfl, rfl, he.symm⟩

/-- C2 witness: a concrete hygienic plan round-trips. -/
theorem roundTripStructured_witness :
    (from_markdown (to_markdown
      { title := pyS "T", block1 := pyS "A", block2 := pyS "B", block3 := pyS "C",
        extras := [], raw_markdown := [], structured := true }) (pyS "F")).block1 =
      ({ title := pyS "T", block1 := pyS "A", block2 := pyS "B", block3 := pyS "C",
         extras := [], raw_markdown := [], structured := true } : TradingPlan).block1 ∧
    (from_markdown (to_markdown
      { title := pyS "T", block1 := pyS "A", block2 := pyS "B", block3 := pyS "C",
        extras := [], raw_markdown := [], structured := true }) (pyS "F")).block2 =
      ({ title := pyS "T", block1 := pyS "A", block2 := pyS "B", block3 := pyS "C",
         extras := [], raw_markdown := [], structured := true } : TradingPlan).block2 ∧
    (from_markdown (to_markdown
      { title := pyS "T", block1 := pyS "A", block2 := pyS "B", block3 := pyS "C",
        extras := [], raw_markdown := [], structured := true }) (pyS "F")).block3 =
      ({ title := pyS "T", block1 := pyS "A", block2 := pyS "B", block3 := pyS "C",
         extras := [], raw_markdown := [], structured := true } : TradingPlan).block3 ∧
    (from_markdown (to_markdown
      { title := pyS "T", block1 := pyS "A", block2 := pyS "B", block3 := pyS "C",
        extras := [], raw_markdown := [], structured := true }) (pyS "F")).extras =
      ({ title := pyS "T", block1 := pyS "A", block2 := pyS "B", block3 := pyS "C",
         extras := [], raw_markdown := [], structured := true } : TradingPlan).extras :=
  roundTripStructured
    { title := pyS "T", block1 := pyS "A", block2 := pyS "B", block3 := pyS "C",
      extras := [], raw_markdown := [], structured := true }
    (by decide) (by decide) (by decide) (by decide) rfl (pyS "F")

/-- C2 counterexample to the unamended claim: a structured plan whose
first section body begins with a newline loses that newline in the round
trip. -/
theorem roundTripStructured_cx :
    ({ title := pyS "T", block1 := pyS "\nx", block2 := pyS "B", block3 := pyS "C",
       extras := [], raw_markdown := [], structured := true } : TradingPlan).structured =
      true ∧
    ¬ (from_markdown (to_markdown
      { title := pyS "T", block1 := pyS "\nx", block2 := pyS "B", block3 := pyS "C",
        extras := [], raw_markdown := [], structured := true }) (pyS "F")).block1 =
      ({ title := pyS "T", block1 := pyS "\nx", block2 := pyS "B", block3 := pyS "C",
         extras := [], raw_markdown := [], structured := true } : TradingPlan).block1 := by
  decide

/-- C10: the Transition block entry parser contributes one entry per
image-bearing chunk, and a chunk with no image marker is dropped
entirely. -/
theorem parseEntriesDropImageless (body : Str) :
    (transitionParseEntries body).length = (chunksOfBody body).countP hasImage ∧
    ∀ c ∈ chunksOfBody body, hasImage c = false → transitionParseChunk c = none := by
  constructor
  · by_cases hempty : (pyStrip body).isEmpty
    · simp [transitionParseEntries, chunksOfBody, hempty]
    · simp [transitionParseEntries, chunksOfBody, hempty, length_filterMap_eq_countP,
        parseChunk_isSome]
  · intro c _ hc
    unfold transitionParseChunk
    cases himg : imageFind c with
    | nil => rfl
    | cons m ms =>
        rw [hasImage, himg] at hc
        cases hc

/-- C10 witness: a two-chunk body whose first chunk has no image yields a
single entry, the imageless chunk parsing to nothing. -/
theorem parseEntriesDropImageless_witness :
    (transitionParseEntries (pyS "#### A\nno image\n\n#### B\n![x](y)")).length = 1 ∧
    transitionParseChunk (pyS "#### A\nno image") = none := by
  have h := parseEntriesDropImageless (pyS "#### A\nno image\n\n#### B\n![x](y)")
  exact ⟨by rw [h.1]; decide, h.2 (pyS "#### A\nno image") (by decide) (by decide)⟩


end TheWriter
